import Mathlib

/-!
# DataOrientedDesign, Phase 2: registry, motion system and spatial-grid collision system

A shallow embedding of `src/Phase2/main.cpp`.

Modelling conventions.

* `float` values are elements of a linearly ordered field `K` with a floor function, and
  every floating-point operation of the source (`+`, `-`, `*`, `/`, a conversion of an `int`,
  a literal that is not representable) is the exact operation followed by the rounding
  `rnd : K → K` of the machine, a parameter of every function that computes with `float`s;
  each operation is rounded by itself (no fused multiply-add, no wider intermediate format).
  With `rnd = round32` (IEEE-754 binary32, round to nearest, ties to even) over `ℚ` the
  definitions compute what the program computes, and can be evaluated; with `rnd = id` they
  are exact arithmetic, over `ℚ` or over `ℝ`.  Three operations are exact in binary32 for
  every operand and are not rounded: the comparisons, the change of sign `v *= -1`, and the
  truncated quotient `(int)(x / CELL_SIZE)` (a division by 64 changes the exponent only, and
  an underflow truncates to the same 0).  The library square root is a parameter
  `sqrt : K → K` of the collision step and the C library generator `rand()` is a parameter
  `rand : Nat → Nat` (a stream of raw draws) together with the constant `RAND_MAX`.
* A `std::vector<T>` / C array is its content, a total function `Int → T`; the five component
  vectors of the registry always have one common size (only `init` resizes them), kept in
  `capacity`.  Handles are `Int` as in the source (`-1` is the sentinel).
* A `for` loop is a fold over the list of its index values.  A `while` loop that follows the
  intrusive list is `whileNotEnd`, which takes a bound `fuel` on the number of loop tests and
  returns `none` when the bound is exhausted.
* `std::thread` workers of `PhysicsSystem::update` are run one after the other, in spawn order.
* `int` values are unbounded integers: the counters of a step are bounded by `entityCount`, and
  the conversion `(int)f` is modelled for every `f` (in C++ it is defined only when the
  truncated value fits an `int`).  The unqualified `abs` of the source is the absolute value
  of the field; against the integer bounds 20 and 40 the test `abs(d) < bound` has the same
  truth value when `abs` is the integer overload applied to the truncated `d`.
-/

set_option autoImplicit false
set_option linter.unusedSectionVars false

namespace DOD

variable {K : Type} [LinearOrderedField K]

/-! ## Constants -/

def WINDOW_WIDTH : Int := 1280
def WINDOW_HEIGHT : Int := 720
def MAX_ENTITIES : Int := 20000

def CELL_SIZE : Int := 64
def GRID_COLS : Int := (WINDOW_WIDTH / CELL_SIZE) + 1
def GRID_ROWS : Int := (WINDOW_HEIGHT / CELL_SIZE) + 1
def MAX_CELLS : Int := GRID_COLS * GRID_ROWS

/-! ## Components -/

structure TransformComponent (K : Type) where
  x : K
  y : K
deriving DecidableEq

structure VelocityComponent (K : Type) where
  vx : K
  vy : K
deriving DecidableEq

structure SpriteComponent where
  isVisible : Bool
  r : Nat
  g : Nat
  b : Nat
  w : Int
  h : Int
deriving DecidableEq

inductive EntityType where
  | TYPE_NONE
  | TYPE_PLAYER
  | TYPE_ENEMY
  | TYPE_COIN
deriving DecidableEq

structure ColliderComponent (K : Type) where
  isActive : Bool
  radius : K
  type : EntityType
deriving DecidableEq

/-- Value-initialised components, as produced by `std::vector::resize`. -/
instance : Inhabited (TransformComponent K) := ⟨⟨0, 0⟩⟩
instance : Inhabited (VelocityComponent K) := ⟨⟨0, 0⟩⟩
instance : Inhabited SpriteComponent := ⟨⟨false, 0, 0, 0, 0, 0⟩⟩
instance : Inhabited (ColliderComponent K) := ⟨⟨false, 0, EntityType.TYPE_NONE⟩⟩

/-- The power `2 ^ e` as a rational. -/
def pow2 (e : Int) : ℚ :=
  if 0 ≤ e then ((2 ^ e.toNat : Nat) : ℚ) else 1 / ((2 ^ (-e).toNat : Nat) : ℚ)

/-- The number of binary digits of `n` (for `n` below `2 ^ fuel`). -/
def bitLength : Nat → Nat → Nat
  | 0, _ => 0
  | fuel + 1, n => if n = 0 then 0 else bitLength fuel (n / 2) + 1

/-- The rounding of IEEE-754 binary32 arithmetic: the nearest number with a 24-bit significand
(of the form `n * 2 ^ e` with `n < 2 ^ 24` and `e ≥ -149`), ties to the even significand.
Values that round beyond the largest finite `float` (to an infinity in C++) are outside the
model. -/
def round32 (q : ℚ) : ℚ :=
  if q = 0 then 0
  else
    let a := |q|
    let e0 : Int := (bitLength 512 a.num.natAbs : Int) - (bitLength 512 a.den : Int)
    let e := if pow2 e0 ≤ a then e0 else e0 - 1
    let ulp := pow2 (max e (-126) - 23)
    let m := a / ulp
    let f := ⌊m⌋
    let r := m - f
    let n := if r < 1 / 2 then f else if 1 / 2 < r then f + 1 else if f % 2 = 0 then f else f + 1
    if q < 0 then -((n : ℚ) * ulp) else (n : ℚ) * ulp

/-- The C++ conversion `(int)f`: truncation toward zero. -/
def toInt [FloorRing K] (q : K) : Int := if 0 ≤ q then ⌊q⌋ else ⌈q⌉

/-- The call `randomFloat(min, max)` on the raw draw `r` of `rand()`. -/
def randomFloat (rnd : K → K) (RAND_MAX : Nat) (r : Nat) (min max : K) : K :=
  rnd (min + rnd (rnd (r : K) / rnd (rnd (RAND_MAX : K) / rnd (max - min))))

/-! ## Registry -/

structure Registry (K : Type) where
  transforms : Int → TransformComponent K
  velocities : Int → VelocityComponent K
  sprites : Int → SpriteComponent
  colliders : Int → ColliderComponent K
  nextEntity : Int → Int
  capacity : Nat
  entityCount : Nat

namespace Registry

/-- The call `v.resize(n)` on a vector of size `old`: the first `min old n` elements stay,
the others are value-initialised. -/
def resize {α : Type} [Inhabited α] (v : Int → α) (old : Nat) : Int → α :=
  fun i => if 0 ≤ i ∧ i < (old : Int) then v i else default

def init (reg : Registry K) (maxEntities : Nat) : Registry K :=
  { transforms := resize reg.transforms reg.capacity
    velocities := resize reg.velocities reg.capacity
    sprites := resize reg.sprites reg.capacity
    colliders := resize reg.colliders reg.capacity
    nextEntity := resize reg.nextEntity reg.capacity
    capacity := maxEntities
    entityCount := 0 }

/-- The method `createEntity`: the returned handle and the registry afterwards. -/
def createEntity (reg : Registry K) : Int × Registry K :=
  if reg.entityCount ≥ reg.capacity then (-1, reg)
  else
    let id : Int := reg.entityCount
    (id,
      { reg with
        entityCount := reg.entityCount + 1
        colliders := Function.update reg.colliders id { reg.colliders id with isActive := false }
        sprites := Function.update reg.sprites id { reg.sprites id with isVisible := true }
        velocities := Function.update reg.velocities id ⟨0, 0⟩
        nextEntity := Function.update reg.nextEntity id (-1) })

def destroyEntity (reg : Registry K) (id : Int) : Registry K :=
  { reg with
    sprites := Function.update reg.sprites id { reg.sprites id with isVisible := false }
    colliders := Function.update reg.colliders id { reg.colliders id with isActive := false }
    transforms := Function.update reg.transforms id { reg.transforms id with x := -10000 } }

end Registry

/-! ## Loops -/

/-- The index values of `for (int i = lo; i < hi; i++)`. -/
def forRange (lo hi : Int) : List Int :=
  (List.range (hi - lo).toNat).map (fun (k : Nat) => lo + (k : Int))

/-- The loop `while (cur != -1) { body(cur); cur = next[cur]; }` with at most `fuel` loop
tests. -/
def whileNotEnd {σ : Type} (next : σ → Int → Int) (body : Int → σ → Option σ) :
    Nat → Int → σ → Option σ
  | 0, _, _ => none
  | fuel + 1, cur, s =>
    if cur = -1 then some s
    else
      match body cur s with
      | none => none
      | some s' => whileNotEnd next body fuel (next s' cur) s'

/-! ## Physics system -/

namespace PhysicsSystem

/-- The state of a worker: the registry and the number of `rand()` draws made so far. -/
abbrev St (K : Type) := Registry K × Nat

/-- One iteration of the loop of `processChunk`. -/
def processEntity (rnd : K → K) (RAND_MAX : Nat) (rand : Nat → Nat) (dt : K) (s : St K)
    (i : Int) : St K :=
  let reg := s.1
  let seed := s.2
  if !(reg.sprites i).isVisible then s
  else
    -- jiggle, coins only
    let s1 : St K :=
      if (reg.colliders i).type = EntityType.TYPE_COIN then
        let t := reg.transforms i
        let x1 := rnd (t.x + randomFloat rnd RAND_MAX (rand seed) (-1) 1)
        let y1 := rnd (t.y + randomFloat rnd RAND_MAX (rand (seed + 1)) (-1) 1)
        ({ reg with transforms := Function.update reg.transforms i ⟨x1, y1⟩ }, seed + 2)
      else s
    let reg1 := s1.1
    -- move
    let t := reg1.transforms i
    let v := reg1.velocities i
    let t2 : TransformComponent K := ⟨rnd (t.x + rnd (v.vx * dt)), rnd (t.y + rnd (v.vy * dt))⟩
    -- bounce
    let v2 : VelocityComponent K :=
      if v.vx ≠ 0 ∨ v.vy ≠ 0 then
        let vx := if t2.x ≤ 0 ∨ t2.x ≥ rnd ((WINDOW_WIDTH - (reg1.sprites i).w : Int) : K)
          then v.vx * (-1) else v.vx
        let vy := if t2.y ≤ 0 ∨ t2.y ≥ rnd ((WINDOW_HEIGHT - (reg1.sprites i).h : Int) : K)
          then v.vy * (-1) else v.vy
        ⟨vx, vy⟩
      else v
    ({ reg1 with
        transforms := Function.update reg1.transforms i t2
        velocities := Function.update reg1.velocities i v2 }, s1.2)

def processChunk (rnd : K → K) (RAND_MAX : Nat) (rand : Nat → Nat) (dt : K) (s : St K)
    (start stop : Int) : St K :=
  (forRange start stop).foldl (processEntity rnd RAND_MAX rand dt) s

/-- The bounds `start` and `end` of worker `i` in `update`. -/
def chunkStart (count numThreads i : Nat) : Nat := i * (count / numThreads)

def chunkEnd (count numThreads i : Nat) : Nat :=
  if i = numThreads - 1 then count else (i + 1) * (count / numThreads)

/-- The method `update`; `hw` is the value of `std::thread::hardware_concurrency()`. -/
def update (rnd : K → K) (RAND_MAX : Nat) (rand : Nat → Nat) (hw : Nat) (dt : K) (s : St K) :
    St K :=
  let numThreads := if hw = 0 then 2 else hw
  let count := s.1.entityCount
  (List.range numThreads).foldl
    (fun s i => processChunk rnd RAND_MAX rand dt s
      (chunkStart count numThreads i) (chunkEnd count numThreads i)) s

end PhysicsSystem

/-! ## Gameplay system -/

structure GameplaySystem where
  gridHead : Int → Int
  cellCounts : Int → Int
  score : Int
  gameOver : Bool

namespace GameplaySystem

variable [FloorRing K]

def getCountInCell (gs : GameplaySystem) (col row : Int) : Int :=
  if col < 0 ∨ col ≥ GRID_COLS ∨ row < 0 ∨ row ≥ GRID_ROWS then 0
  else gs.cellCounts (row * GRID_COLS + col)

/-- The call `std::fill(std::begin(a), std::end(a), v)` on an array of `MAX_CELLS` cells. -/
def fill (a : Int → Int) (v : Int) : Int → Int :=
  fun c => if 0 ≤ c ∧ c < MAX_CELLS then v else a c

/-- Phase 1 of `update`. -/
def clear (gs : GameplaySystem) : GameplaySystem :=
  { gs with gridHead := fill gs.gridHead (-1), cellCounts := fill gs.cellCounts 0 }

/-- One iteration of the populate loop. -/
def populateStep (playerID : Int) (s : Registry K × GameplaySystem) (i : Int) :
    Registry K × GameplaySystem :=
  let reg := s.1
  let gs := s.2
  if !(reg.colliders i).isActive then s
  else if i = playerID then s
  else
    let cx := toInt ((reg.transforms i).x / (CELL_SIZE : K))
    let cy := toInt ((reg.transforms i).y / (CELL_SIZE : K))
    if cx ≥ 0 ∧ cx < GRID_COLS ∧ cy ≥ 0 ∧ cy < GRID_ROWS then
      let cellIndex := cy * GRID_COLS + cx
      ({ reg with nextEntity := Function.update reg.nextEntity i (gs.gridHead cellIndex) },
       { gs with
          gridHead := Function.update gs.gridHead cellIndex i
          cellCounts := Function.update gs.cellCounts cellIndex (gs.cellCounts cellIndex + 1) })
    else s

/-- Phase 2 of `update`. -/
def populate (playerID : Int) (s : Registry K × GameplaySystem) : Registry K × GameplaySystem :=
  (forRange 0 s.1.entityCount).foldl (populateStep playerID) s

/-- The guard of the separation of the pair `(i, j)`. -/
def sepCond (rnd : K → K) (reg : Registry K) (i j : Int) : Prop :=
  (reg.colliders i).type = EntityType.TYPE_COIN ∧ (reg.colliders j).type = EntityType.TYPE_COIN ∧
  let dx := rnd ((reg.transforms i).x - (reg.transforms j).x)
  let dy := rnd ((reg.transforms i).y - (reg.transforms j).y)
  |dx| < 20 ∧ |dy| < 20 ∧
  let distSq := rnd (rnd (dx * dx) + rnd (dy * dy))
  let rTotal := rnd ((reg.colliders i).radius + (reg.colliders j).radius)
  distSq < rnd (rTotal * rTotal) ∧ distSq > rnd (1 / 10000)

instance (rnd : K → K) (reg : Registry K) (i j : Int) : Decidable (sepCond rnd reg i j) := by
  unfold sepCond; infer_instance

/-- The body of the inner loop of phase 3, on the pair `(i, j)`. -/
def separatePair (rnd sqrt : K → K) (reg : Registry K) (i j : Int) : Registry K :=
  if sepCond rnd reg i j then
    let dx := rnd ((reg.transforms i).x - (reg.transforms j).x)
    let dy := rnd ((reg.transforms i).y - (reg.transforms j).y)
    let distSq := rnd (rnd (dx * dx) + rnd (dy * dy))
    let rTotal := rnd ((reg.colliders i).radius + (reg.colliders j).radius)
    let dist := sqrt distSq
    let overlap := rnd (rTotal - dist)
    let nx := rnd (dx / dist)
    let ny := rnd (dy / dist)
    let separationForce := rnd (overlap * (1 / 2))
    let ti := reg.transforms i
    let tr1 := Function.update reg.transforms i
      ⟨rnd (ti.x + rnd (nx * separationForce)), rnd (ti.y + rnd (ny * separationForce))⟩
    let tj := tr1 j
    let tr2 := Function.update tr1 j
      ⟨rnd (tj.x - rnd (nx * separationForce)), rnd (tj.y - rnd (ny * separationForce))⟩
    { reg with transforms := tr2 }
  else reg

/-- The inner `while (j != -1)` loop of phase 3 for a fixed `i`. -/
def separateFrom (rnd sqrt : K → K) (fuel : Nat) (i : Int) (reg : Registry K) :
    Option (Registry K) :=
  whileNotEnd Registry.nextEntity (fun j r => some (separatePair rnd sqrt r i j)) fuel
    (reg.nextEntity i) reg

/-- The `while (i != -1)` loop of phase 3 for the cell `c`. -/
def separateCell (rnd sqrt : K → K) (fuel : Nat) (gridHead : Int → Int) (reg : Registry K)
    (c : Int) : Option (Registry K) :=
  whileNotEnd Registry.nextEntity (separateFrom rnd sqrt fuel) fuel (gridHead c) reg

/-- Phase 3 of `update`. -/
def coinSeparation (rnd sqrt : K → K) (fuel : Nat) (gridHead : Int → Int) (reg : Registry K) :
    Option (Registry K) :=
  (forRange 0 MAX_CELLS).foldlM (separateCell rnd sqrt fuel gridHead) reg

/-- The guard of the player collision against the entity `e`, the player being at `(px, py)`
with radius `pr`. -/
def hitCond (rnd : K → K) (px py pr : K) (reg : Registry K) (e : Int) : Prop :=
  let dx := rnd (px - (reg.transforms e).x)
  let dy := rnd (py - (reg.transforms e).y)
  |dx| < 40 ∧ |dy| < 40 ∧
  let distSq := rnd (rnd (dx * dx) + rnd (dy * dy))
  let rTotal := rnd (pr + (reg.colliders e).radius)
  distSq < rnd (rTotal * rTotal)

instance (rnd : K → K) (px py pr : K) (reg : Registry K) (e : Int) :
    Decidable (hitCond rnd px py pr reg e) := by
  unfold hitCond; infer_instance

/-- The body of the `while (currentEntityID != -1)` loop of phase 4. -/
def playerHit (rnd : K → K) (px py pr : K) (playerID : Int) (e : Int)
    (s : Registry K × GameplaySystem) : Registry K × GameplaySystem :=
  let reg := s.1
  let gs := s.2
  if hitCond rnd px py pr reg e then
    match (reg.colliders e).type with
    | EntityType.TYPE_COIN => (reg.destroyEntity e, { gs with score := gs.score + 1 })
    | EntityType.TYPE_ENEMY =>
      ({ reg with
          velocities := Function.update reg.velocities playerID ⟨0, 0⟩
          sprites := Function.update reg.sprites playerID { reg.sprites playerID with r := 100 } },
       { gs with gameOver := true })
    | _ => s
  else s

/-- The scan of one cell's list in phase 4. -/
def scanCell (rnd : K → K) (px py pr : K) (playerID : Int) (fuel : Nat)
    (s : Registry K × GameplaySystem) (cellIndex : Int) : Option (Registry K × GameplaySystem) :=
  whileNotEnd (fun s => s.1.nextEntity) (fun e s => some (playerHit rnd px py pr playerID e s))
    fuel (s.2.gridHead cellIndex) s

/-- Phase 4 of `update`. -/
def playerCollision (rnd : K → K) (fuel : Nat) (playerID : Int)
    (s : Registry K × GameplaySystem) :
    Option (Registry K × GameplaySystem) :=
  let px := (s.1.transforms playerID).x
  let py := (s.1.transforms playerID).y
  let pr := (s.1.colliders playerID).radius
  let pcx := toInt (px / (CELL_SIZE : K))
  let pcy := toInt (py / (CELL_SIZE : K))
  (forRange (max 0 (pcx - 1)) (min (GRID_COLS - 1) (pcx + 1) + 1)).foldlM
    (fun s x =>
      (forRange (max 0 (pcy - 1)) (min (GRID_ROWS - 1) (pcy + 1) + 1)).foldlM
        (fun s y => scanCell rnd px py pr playerID fuel s (y * GRID_COLS + x)) s) s

/-- The method `update`. -/
def update (rnd sqrt : K → K) (fuel : Nat) (playerID : Int) (s : Registry K × GameplaySystem) :
    Option (Registry K × GameplaySystem) :=
  if s.2.gameOver then some s
  else
    let s2 := populate playerID (s.1, clear s.2)
    match coinSeparation rnd sqrt fuel s2.2.gridHead s2.1 with
    | none => none
    | some reg3 => playerCollision rnd fuel playerID (reg3, s2.2)

end GameplaySystem

/-! ## Auxiliary definitions used in the statements -/

/-- The registry after `k` calls of `createEntity` from `reg`, the caller editing the registry
with `edit j` after call number `j` (as `initLevel` does when it fills in the components). -/
def createRun (edit : Nat → Registry K → Registry K) : Nat → Registry K → Registry K
  | 0, reg => reg
  | k + 1, reg => edit k (createRun edit k reg).createEntity.2

namespace PhysicsSystem

/-- The transform of entity `i` before the move of its iteration: jiggled for a coin. -/
def jiggled (rnd : K → K) (RAND_MAX : Nat) (rand : Nat → Nat) (s : St K) (i : Int) :
    TransformComponent K :=
  if (s.1.colliders i).type = EntityType.TYPE_COIN then
    ⟨rnd ((s.1.transforms i).x + randomFloat rnd RAND_MAX (rand s.2) (-1) 1),
     rnd ((s.1.transforms i).y + randomFloat rnd RAND_MAX (rand (s.2 + 1)) (-1) 1)⟩
  else s.1.transforms i

/-- The transform of a visible entity `i` after its iteration. -/
def movedTransform (rnd : K → K) (RAND_MAX : Nat) (rand : Nat → Nat) (dt : K) (s : St K)
    (i : Int) : TransformComponent K :=
  ⟨rnd ((jiggled rnd RAND_MAX rand s i).x + rnd ((s.1.velocities i).vx * dt)),
   rnd ((jiggled rnd RAND_MAX rand s i).y + rnd ((s.1.velocities i).vy * dt))⟩

/-- The velocity of a visible entity `i` after its iteration, its transform then being `t`. -/
def bouncedVelocity (rnd : K → K) (reg : Registry K) (t : TransformComponent K) (i : Int) :
    VelocityComponent K :=
  if (reg.velocities i).vx ≠ 0 ∨ (reg.velocities i).vy ≠ 0 then
    ⟨if t.x ≤ 0 ∨ t.x ≥ rnd ((WINDOW_WIDTH - (reg.sprites i).w : Int) : K)
        then (reg.velocities i).vx * (-1) else (reg.velocities i).vx,
     if t.y ≤ 0 ∨ t.y ≥ rnd ((WINDOW_HEIGHT - (reg.sprites i).h : Int) : K)
        then (reg.velocities i).vy * (-1) else (reg.velocities i).vy⟩
  else reg.velocities i

end PhysicsSystem

namespace GameplaySystem

variable [FloorRing K]

/-- The cell index that the populate loop computes for entity `i`, when it is inside the grid
bounds. -/
def cellOf (reg : Registry K) (i : Int) : Option Int :=
  let cx := toInt ((reg.transforms i).x / (CELL_SIZE : K))
  let cy := toInt ((reg.transforms i).y / (CELL_SIZE : K))
  if cx ≥ 0 ∧ cx < GRID_COLS ∧ cy ≥ 0 ∧ cy < GRID_ROWS then some (cy * GRID_COLS + cx) else none

/-- The populate loop links entity `i` into the list of cell `c`: its collider is active, it
is not the player, and its position maps to the cell `c` of the grid. -/
def inCell (reg : Registry K) (playerID : Int) (c : Int) (i : Int) : Prop :=
  (reg.colliders i).isActive = true ∧ i ≠ playerID ∧ cellOf reg i = some c

instance (reg : Registry K) (playerID c i : Int) : Decidable (inCell reg playerID c i) := by
  unfold inCell; infer_instance

/-- The populate loop links entity `i` into some list. -/
def onGrid (reg : Registry K) (playerID : Int) (i : Int) : Prop :=
  (reg.colliders i).isActive = true ∧ i ≠ playerID ∧ (cellOf reg i).isSome = true

instance (reg : Registry K) (playerID i : Int) : Decidable (onGrid reg playerID i) := by
  unfold onGrid; infer_instance

/-- The handles linked into the list of cell `c` by the first `n` iterations of the populate
loop, head of the list first. -/
def cellMembers (reg : Registry K) (playerID : Int) (c : Int) : Nat → List Int
  | 0 => []
  | n + 1 =>
    if inCell reg playerID c n then (n : Int) :: cellMembers reg playerID c n
    else cellMembers reg playerID c n

/-- The intrusive list that starts at `head` and follows `next` up to the sentinel `-1` visits
exactly the handles of `l`, in order. -/
def IsChain (next : Int → Int) : Int → List Int → Prop
  | head, [] => head = -1
  | head, a :: l => head = a ∧ a ≠ -1 ∧ IsChain next (next a) l

/-- Phase 3 on one cell whose list is `l`: every handle against the handles after it. -/
def sepList (rnd sqrt : K → K) : List Int → Registry K → Registry K
  | [], reg => reg
  | a :: l, reg => sepList rnd sqrt l (l.foldl (fun r b => separatePair rnd sqrt r a b) reg)

/-- Phase 3 on the cells `cells`, the list of cell `c` being `lists c`. -/
def sepCells (rnd sqrt : K → K) (lists : Int → List Int) (cells : List Int)
    (reg : Registry K) : Registry K :=
  cells.foldl (fun r c => sepList rnd sqrt (lists c) r) reg

/-- The handles met by phase 4, in order, for a player at `(px, py)`, the list of cell `c`
being `lists c`. -/
def scanList (lists : Int → List Int) (px py : K) : List Int :=
  (forRange (max 0 (toInt (px / (CELL_SIZE : K)) - 1))
      (min (GRID_COLS - 1) (toInt (px / (CELL_SIZE : K)) + 1) + 1)).flatMap
    (fun x =>
      (forRange (max 0 (toInt (py / (CELL_SIZE : K)) - 1))
          (min (GRID_ROWS - 1) (toInt (py / (CELL_SIZE : K)) + 1) + 1)).flatMap
        (fun y => lists (y * GRID_COLS + x)))

/-- Phase 4 as a fold over the handles it meets. -/
def scanAll (rnd : K → K) (playerID : Int) (lists : Int → List Int)
    (s : Registry K × GameplaySystem) : Registry K × GameplaySystem :=
  let px := (s.1.transforms playerID).x
  let py := (s.1.transforms playerID).y
  let pr := (s.1.colliders playerID).radius
  (scanList lists px py).foldl (fun t e => playerHit rnd px py pr playerID e t) s

/-- The state reached by the first `n` iterations of the populate loop from
`(reg, clear gs)`: only `nextEntity`, `gridHead` and `cellCounts` have changed, the list of
every cell `c` is the chain of `cellMembers reg playerID c n`, and the occupancy count of `c`
is its length. -/
structure Populated (reg : Registry K) (gs : GameplaySystem) (playerID : Int) (n : Nat)
    (s : Registry K × GameplaySystem) : Prop where
  transforms : s.1.transforms = reg.transforms
  velocities : s.1.velocities = reg.velocities
  sprites : s.1.sprites = reg.sprites
  colliders : s.1.colliders = reg.colliders
  capacity : s.1.capacity = reg.capacity
  entityCount : s.1.entityCount = reg.entityCount
  score : s.2.score = gs.score
  gameOver : s.2.gameOver = gs.gameOver
  chain : ∀ c, 0 ≤ c → c < MAX_CELLS →
    IsChain s.1.nextEntity (s.2.gridHead c) (cellMembers reg playerID c n)
  counts : ∀ c, 0 ≤ c → c < MAX_CELLS →
    s.2.cellCounts c = ((cellMembers reg playerID c n).length : Int)

/-- The collision step on the lists of handles: populate, then phase 3 on the list of every
cell, then phase 4 on the lists of the neighbourhood of the player. -/
def listUpdate (rnd sqrt : K → K) (playerID : Int) (s : Registry K × GameplaySystem) :
    Registry K × GameplaySystem :=
  scanAll rnd playerID (fun c => cellMembers s.1 playerID c s.1.entityCount)
    (sepCells rnd sqrt (fun c => cellMembers s.1 playerID c s.1.entityCount) (forRange 0 MAX_CELLS)
      (populate playerID (s.1, clear s.2)).1,
     (populate playerID (s.1, clear s.2)).2)

/-- The cell of entity `e` is one of the cells scanned by phase 4 around the player: its
column and row are within one of the player's, inside the grid. -/
def inNeighbourhood (reg : Registry K) (playerID e : Int) : Prop :=
  let cx := toInt ((reg.transforms e).x / (CELL_SIZE : K))
  let cy := toInt ((reg.transforms e).y / (CELL_SIZE : K))
  let pcx := toInt ((reg.transforms playerID).x / (CELL_SIZE : K))
  let pcy := toInt ((reg.transforms playerID).y / (CELL_SIZE : K))
  max 0 (pcx - 1) ≤ cx ∧ cx ≤ min (GRID_COLS - 1) (pcx + 1) ∧
  max 0 (pcy - 1) ≤ cy ∧ cy ≤ min (GRID_ROWS - 1) (pcy + 1)

instance (reg : Registry K) (playerID e : Int) : Decidable (inNeighbourhood reg playerID e) := by
  unfold inNeighbourhood; infer_instance

/-- What phase 3 leaves alone: everything but the transforms of the coins on the lists. -/
structure SepFrame (l : List Int) (r r' : Registry K) : Prop where
  velocities : r'.velocities = r.velocities
  sprites : r'.sprites = r.sprites
  colliders : r'.colliders = r.colliders
  entityCount : r'.entityCount = r.entityCount
  capacity : r'.capacity = r.capacity
  nextEntity : r'.nextEntity = r.nextEntity
  transforms : ∀ k, (k ∉ l ∨ (r.colliders k).type ≠ EntityType.TYPE_COIN) →
    r'.transforms k = r.transforms k

/-- The registry after phases 1 to 3. -/
def separated (rnd sqrt : K → K) (playerID : Int) (s : Registry K × GameplaySystem) :
    Registry K :=
  sepCells rnd sqrt (fun c => cellMembers s.1 playerID c s.1.entityCount) (forRange 0 MAX_CELLS)
    (populate playerID (s.1, clear s.2)).1

/-- What phase 4 leaves alone, from the registry `r0` it starts on: the category and the
radius of every collider, and the transform of every entity that is not a coin. -/
structure HitFrame (r0 : Registry K) (t : Registry K × GameplaySystem) : Prop where
  type : ∀ k, (t.1.colliders k).type = (r0.colliders k).type
  radius : ∀ k, (t.1.colliders k).radius = (r0.colliders k).radius
  transforms : ∀ k, (r0.colliders k).type ≠ EntityType.TYPE_COIN →
    t.1.transforms k = r0.transforms k

/-- The registry on which phase 4 of `update` runs: the result of phases 1 to 3. -/
def afterSeparation (rnd sqrt : K → K) (fuel : Nat) (playerID : Int)
    (s : Registry K × GameplaySystem) : Option (Registry K) :=
  coinSeparation rnd sqrt fuel (populate playerID (s.1, clear s.2)).2.gridHead
    (populate playerID (s.1, clear s.2)).1

/-- The handles met by the traversal `for (e = gridHead[c]; e != -1; e = nextEntity[e])` of
the list of cell `c`, in order, with at most `fuel` loop tests. -/
def cellList (fuel : Nat) (s : Registry K × GameplaySystem) (c : Int) : Option (List Int) :=
  whileNotEnd (fun _ => s.1.nextEntity) (fun e acc => some (acc ++ [e])) fuel (s.2.gridHead c) []

end GameplaySystem

/-! ## Concrete states -/

/-- An empty registry of capacity 2. -/
def emptyRegistry : Registry ℚ :=
  { transforms := fun _ => default
    velocities := fun _ => default
    sprites := fun _ => default
    colliders := fun _ => default
    nextEntity := fun _ => 0
    capacity := 2
    entityCount := 0 }

/-- A gameplay system before its first frame. -/
def freshGameplay : GameplaySystem :=
  { gridHead := fun _ => 0, cellCounts := fun _ => 0, score := 0, gameOver := false }

/-- A gameplay system whose game is over, with score 7. -/
def overGameplay : GameplaySystem :=
  { gridHead := fun _ => 0, cellCounts := fun _ => 0, score := 7, gameOver := true }

/-- The scenario of the spec: the player (radius 15) at (640,360), handle 0, and an enemy
(radius 12) at (645,360), handle 1, moving at (10,0); handle 2 is a destroyed coin. -/
def enemyRegistry : Registry ℚ :=
  { transforms := fun i =>
      if i = 0 then ⟨640, 360⟩ else if i = 1 then ⟨645, 360⟩ else ⟨-10000, 50⟩
    velocities := fun i => if i = 0 then ⟨350, 0⟩ else if i = 1 then ⟨10, 0⟩ else ⟨0, 0⟩
    sprites := fun i =>
      if i = 0 then ⟨true, 0, 255, 0, 30, 30⟩
      else if i = 1 then ⟨true, 255, 50, 50, 25, 25⟩ else ⟨false, 255, 215, 0, 15, 15⟩
    colliders := fun i =>
      if i = 0 then ⟨true, 15, EntityType.TYPE_PLAYER⟩
      else if i = 1 then ⟨true, 12, EntityType.TYPE_ENEMY⟩ else ⟨false, 8, EntityType.TYPE_COIN⟩
    nextEntity := fun _ => -1
    capacity := 3
    entityCount := 3 }

/-- One visible enemy, handle 0, 30 wide, at x = 1250 and moving right at 10 per unit time. -/
def edgeRegistry : Registry ℚ :=
  { transforms := fun _ => ⟨1250, 100⟩
    velocities := fun _ => ⟨10, 0⟩
    sprites := fun _ => ⟨true, 255, 50, 50, 30, 30⟩
    colliders := fun _ => ⟨true, 12, EntityType.TYPE_ENEMY⟩
    nextEntity := fun _ => -1
    capacity := 1
    entityCount := 1 }

/-- One visible enemy, handle 0, 30 wide and 30 high, at (1270,700) and moving at (20,30): a
step of one unit of time takes it beyond the right edge and beyond the bottom edge. -/
def cornerRegistry : Registry ℚ :=
  { transforms := fun _ => ⟨1270, 700⟩
    velocities := fun _ => ⟨20, 30⟩
    sprites := fun _ => ⟨true, 255, 50, 50, 30, 30⟩
    colliders := fun _ => ⟨true, 12, EntityType.TYPE_ENEMY⟩
    nextEntity := fun _ => -1
    capacity := 1
    entityCount := 1 }

/-- One visible enemy, handle 0, 20 wide and 25 high, at (1250,694) with velocity
(10, 0.99999994), the second component being the `float` just below 1: in exact arithmetic a
step of one unit of time ends just above the bottom edge 720 - 25 = 695, in binary32 on it. -/
def roundedEdgeRegistry : Registry ℚ :=
  { transforms := fun _ => ⟨1250, 694⟩
    velocities := fun _ => ⟨10, 16777215 / 16777216⟩
    sprites := fun _ => ⟨true, 255, 50, 50, 20, 25⟩
    colliders := fun _ => ⟨true, 12, EntityType.TYPE_ENEMY⟩
    nextEntity := fun _ => -1
    capacity := 1
    entityCount := 1 }

/-- The player (radius 15) at (640,360), handle 0, and the two coins of the spec scenario,
radius 8, at (100,100), handle 1, and (105,100), handle 2. -/
def coinsRegistry : Registry ℚ :=
  { transforms := fun i =>
      if i = 0 then ⟨640, 360⟩ else if i = 1 then ⟨100, 100⟩ else ⟨105, 100⟩
    velocities := fun _ => ⟨0, 0⟩
    sprites := fun i =>
      if i = 0 then ⟨true, 0, 255, 0, 30, 30⟩ else ⟨true, 255, 215, 0, 15, 15⟩
    colliders := fun i =>
      if i = 0 then ⟨true, 15, EntityType.TYPE_PLAYER⟩ else ⟨true, 8, EntityType.TYPE_COIN⟩
    nextEntity := fun _ => -1
    capacity := 3
    entityCount := 3 }

/-- The player (radius 15) at (640,360), handle 0, and two coins of radius 30 at (100,100),
handle 1, and (125,100), handle 2: they overlap (25 < 60) and share the cell 22. -/
def wideCoinsRegistry : Registry ℚ :=
  { transforms := fun i =>
      if i = 0 then ⟨640, 360⟩ else if i = 1 then ⟨100, 100⟩ else ⟨125, 100⟩
    velocities := fun _ => ⟨0, 0⟩
    sprites := fun i =>
      if i = 0 then ⟨true, 0, 255, 0, 30, 30⟩ else ⟨true, 255, 215, 0, 15, 15⟩
    colliders := fun i =>
      if i = 0 then ⟨true, 15, EntityType.TYPE_PLAYER⟩ else ⟨true, 30, EntityType.TYPE_COIN⟩
    nextEntity := fun _ => -1
    capacity := 3
    entityCount := 3 }

/-- The player (radius 15) at (640,360), handle 0, a coin (radius 8) at (650,360), handle 1,
and an enemy (radius 12) far away at (100,100), handle 2. -/
def pickupRegistry : Registry ℚ :=
  { transforms := fun i =>
      if i = 0 then ⟨640, 360⟩ else if i = 1 then ⟨650, 360⟩ else ⟨100, 100⟩
    velocities := fun _ => ⟨0, 0⟩
    sprites := fun i =>
      if i = 0 then ⟨true, 0, 255, 0, 30, 30⟩
      else if i = 1 then ⟨true, 255, 215, 0, 15, 15⟩ else ⟨true, 255, 50, 50, 25, 25⟩
    colliders := fun i =>
      if i = 0 then ⟨true, 15, EntityType.TYPE_PLAYER⟩
      else if i = 1 then ⟨true, 8, EntityType.TYPE_COIN⟩ else ⟨true, 12, EntityType.TYPE_ENEMY⟩
    nextEntity := fun _ => -1
    capacity := 3
    entityCount := 3 }

/-- The player (radius 15) at (640,360), handle 0, and two coins of radius 8 that share the
cell 115: handle 1 at (662.5,360), 22.5 away from the player, and handle 2 at (662.5,354). -/
def pushedCoinRegistry : Registry ℚ :=
  { transforms := fun i =>
      if i = 0 then ⟨640, 360⟩ else if i = 1 then ⟨1325 / 2, 360⟩ else ⟨1325 / 2, 354⟩
    velocities := fun _ => ⟨0, 0⟩
    sprites := fun i =>
      if i = 0 then ⟨true, 0, 255, 0, 30, 30⟩ else ⟨true, 255, 215, 0, 15, 15⟩
    colliders := fun i =>
      if i = 0 then ⟨true, 15, EntityType.TYPE_PLAYER⟩ else ⟨true, 8, EntityType.TYPE_COIN⟩
    nextEntity := fun _ => -1
    capacity := 3
    entityCount := 3 }

/-- The player (radius 15) at (640,360), handle 0, moving at (350,0), and an enemy (radius 12),
handle 1, at (632.6820678710938, 334.0106201171875), two `float` values: the exact squared
distance is 728.9999973..., just below (15 + 12)² = 729, and rounds to 729 in binary32. -/
def nearEnemyRegistry : Registry ℚ :=
  { transforms := fun i => if i = 0 then ⟨640, 360⟩ else ⟨10365863 / 16384, 2736215 / 8192⟩
    velocities := fun i => if i = 0 then ⟨350, 0⟩ else ⟨10, 0⟩
    sprites := fun i =>
      if i = 0 then ⟨true, 0, 255, 0, 30, 30⟩ else ⟨true, 255, 50, 50, 25, 25⟩
    colliders := fun i =>
      if i = 0 then ⟨true, 15, EntityType.TYPE_PLAYER⟩ else ⟨true, 12, EntityType.TYPE_ENEMY⟩
    nextEntity := fun _ => -1
    capacity := 2
    entityCount := 2 }

/-- The player (radius 15) at (640,360), handle 0, and one coin (radius 8), handle 1, at
(661.3392944335938, 351.4189453125), two `float` values: the exact squared distance is
528.99998..., just below (15 + 8)² = 529, and rounds to 529 in binary32. -/
def nearCoinRegistry : Registry ℚ :=
  { transforms := fun i => if i = 0 then ⟨640, 360⟩ else ⟨10835383 / 16384, 359853 / 1024⟩
    velocities := fun _ => ⟨0, 0⟩
    sprites := fun i =>
      if i = 0 then ⟨true, 0, 255, 0, 30, 30⟩ else ⟨true, 255, 215, 0, 15, 15⟩
    colliders := fun i =>
      if i = 0 then ⟨true, 15, EntityType.TYPE_PLAYER⟩ else ⟨true, 8, EntityType.TYPE_COIN⟩
    nextEntity := fun _ => -1
    capacity := 2
    entityCount := 2 }

/-- The player at (640,360), handle 0, and an active enemy just left of the window, at
(-10,100), handle 1. -/
def leftEdgeRegistry : Registry ℚ :=
  { transforms := fun i => if i = 0 then ⟨640, 360⟩ else ⟨-10, 100⟩
    velocities := fun _ => ⟨0, 0⟩
    sprites := fun i =>
      if i = 0 then ⟨true, 0, 255, 0, 30, 30⟩ else ⟨true, 255, 50, 50, 25, 25⟩
    colliders := fun i =>
      if i = 0 then ⟨true, 15, EntityType.TYPE_PLAYER⟩ else ⟨true, 12, EntityType.TYPE_ENEMY⟩
    nextEntity := fun _ => -1
    capacity := 2
    entityCount := 2 }

/-! # Theorems -/

/-! ## Registry -/

theorem createRun_count (edit : Nat → Registry K → Registry K)
    (hedit : ∀ k r, (edit k r).capacity = r.capacity ∧ (edit k r).entityCount = r.entityCount)
    (reg : Registry K) (k : Nat) (hk : reg.entityCount + k ≤ reg.capacity) :
    (createRun edit k reg).capacity = reg.capacity ∧
    (createRun edit k reg).entityCount = reg.entityCount + k := by
  induction k with
  | zero => simp [createRun]
  | succ k ih =>
    obtain ⟨hc, hn⟩ := ih (by omega)
    have hlt : ¬ (createRun edit k reg).entityCount ≥ (createRun edit k reg).capacity := by omega
    simp only [createRun, (hedit _ _).1, (hedit _ _).2, Registry.createEntity, if_neg hlt]
    constructor
    · exact hc
    · omega

theorem createEntity_full (reg : Registry K) (h : reg.capacity ≤ reg.entityCount) :
    reg.createEntity = (-1, reg) := by
  simp [Registry.createEntity, h]

/-- C3: on a registry initialised with capacity `N`, the first `N` calls of `createEntity`
succeed (call number `k` returns the handle `k`), whatever the caller writes into the components
in between, and the call after them returns the sentinel `-1` and leaves the whole registry,
`entityCount = N` included, unchanged. -/
theorem createEntity_beyond_capacity (reg0 : Registry K) (N : Nat)
    (edit : Nat → Registry K → Registry K)
    (hedit : ∀ k r, (edit k r).capacity = r.capacity ∧ (edit k r).entityCount = r.entityCount) :
    (∀ k, k < N → (createRun edit k (reg0.init N)).createEntity.1 = (k : Int)) ∧
    (createRun edit N (reg0.init N)).entityCount = N ∧
    (createRun edit N (reg0.init N)).createEntity = (-1, createRun edit N (reg0.init N)) := by
  have h0 : (reg0.init N).entityCount = 0 := rfl
  have hcap : (reg0.init N).capacity = N := rfl
  refine ⟨?_, ?_, ?_⟩
  · intro k hk
    obtain ⟨hc, hn⟩ := createRun_count edit hedit (reg0.init N) k (by omega)
    have hlt : ¬ (createRun edit k (reg0.init N)).entityCount ≥
        (createRun edit k (reg0.init N)).capacity := by omega
    rw [Registry.createEntity, if_neg hlt]
    simp [hn, h0]
  · obtain ⟨_, hn⟩ := createRun_count edit hedit (reg0.init N) N (by omega)
    omega
  · obtain ⟨hc, hn⟩ := createRun_count edit hedit (reg0.init N) N (by omega)
    exact createEntity_full _ (by omega)

/-- Witness of C3: capacity 2, the caller placing each new entity at (5, 5). -/
theorem createEntity_beyond_capacity_witness :
    (∀ k, k < 2 →
      (createRun (fun _ (r : Registry ℚ) => { r with transforms := fun _ => ⟨5, 5⟩ }) k
        (enemyRegistry.init 2)).createEntity.1 = (k : Int)) ∧
    (createRun (fun _ (r : Registry ℚ) => { r with transforms := fun _ => ⟨5, 5⟩ }) 2
      (enemyRegistry.init 2)).entityCount = 2 ∧
    (createRun (fun _ (r : Registry ℚ) => { r with transforms := fun _ => ⟨5, 5⟩ }) 2
      (enemyRegistry.init 2)).createEntity =
      (-1, createRun (fun _ (r : Registry ℚ) => { r with transforms := fun _ => ⟨5, 5⟩ }) 2
        (enemyRegistry.init 2)) :=
  createEntity_beyond_capacity enemyRegistry 2
    (fun _ (r : Registry ℚ) => { r with transforms := fun _ => ⟨5, 5⟩ }) (fun _ _ => ⟨rfl, rfl⟩)

/-- C4: when `entityCount < capacity`, `createEntity` returns the previous `entityCount` as the
handle, increases `entityCount` by exactly one, makes the collider of the new handle inactive,
its sprite visible, its velocity (0,0) and its list-next `-1`, and leaves the components of
every other handle (and all transforms, and the capacity) unchanged. -/
theorem createEntity_within_capacity (reg : Registry K) (h : reg.entityCount < reg.capacity) :
    reg.createEntity.1 = (reg.entityCount : Int) ∧
    reg.createEntity.2.entityCount = reg.entityCount + 1 ∧
    reg.createEntity.2.capacity = reg.capacity ∧
    (reg.createEntity.2.colliders reg.entityCount).isActive = false ∧
    (reg.createEntity.2.sprites reg.entityCount).isVisible = true ∧
    reg.createEntity.2.velocities reg.entityCount = ⟨0, 0⟩ ∧
    reg.createEntity.2.nextEntity reg.entityCount = -1 ∧
    reg.createEntity.2.transforms = reg.transforms ∧
    ∀ j : Int, j ≠ (reg.entityCount : Int) →
      reg.createEntity.2.velocities j = reg.velocities j ∧
      reg.createEntity.2.sprites j = reg.sprites j ∧
      reg.createEntity.2.colliders j = reg.colliders j ∧
      reg.createEntity.2.nextEntity j = reg.nextEntity j := by
  have hlt : ¬ reg.entityCount ≥ reg.capacity := by omega
  rw [Registry.createEntity, if_neg hlt]
  refine ⟨rfl, rfl, rfl, ?_, ?_, ?_, ?_, rfl, ?_⟩
  · simp
  · simp
  · simp
  · simp
  · intro j hj
    simp [Function.update_noteq hj]

/-- Witness of C4: the empty registry of capacity 2. -/
theorem createEntity_within_capacity_witness :
    emptyRegistry.entityCount < emptyRegistry.capacity ∧
    emptyRegistry.createEntity.1 = 0 ∧
    emptyRegistry.createEntity.2.entityCount = 1 ∧
    emptyRegistry.createEntity.2.nextEntity 0 = -1 :=
  ⟨by decide,
   (createEntity_within_capacity emptyRegistry (by decide)).1,
   (createEntity_within_capacity emptyRegistry (by decide)).2.1,
   (createEntity_within_capacity emptyRegistry (by decide)).2.2.2.2.2.2.1⟩

/-! ## Loops -/

theorem forRange_nodup (lo hi : Int) : (forRange lo hi).Nodup := by
  unfold forRange
  refine (List.nodup_range _).map ?_
  intro a b h
  simpa using h

theorem mem_forRange (lo hi i : Int) : i ∈ forRange lo hi ↔ lo ≤ i ∧ i < hi := by
  unfold forRange
  simp only [List.mem_map, List.mem_range]
  constructor
  · rintro ⟨k, hk, rfl⟩
    omega
  · intro h
    exact ⟨(i - lo).toNat, by omega, by omega⟩

/-! ## Physics system -/

namespace PhysicsSystem

theorem chunk_bounds (n T i : Nat) (hi : i < T) :
    chunkStart n T i ≤ chunkEnd n T i ∧ chunkEnd n T i ≤ n := by
  unfold chunkStart chunkEnd
  have hmul : T * (n / T) ≤ n := Nat.mul_div_le n T
  by_cases h : i = T - 1
  · rw [if_pos h]
    refine ⟨?_, le_refl _⟩
    calc i * (n / T) ≤ T * (n / T) := Nat.mul_le_mul_right _ (by omega)
      _ ≤ n := hmul
  · rw [if_neg h]
    refine ⟨Nat.mul_le_mul_right _ (by omega), ?_⟩
    calc (i + 1) * (n / T) ≤ T * (n / T) := Nat.mul_le_mul_right _ (by omega)
      _ ≤ n := hmul

theorem chunk_cover (n T : Nat) (hT : 1 ≤ T) (k : Nat) (hk : k < n) :
    ∃! i, i < T ∧ chunkStart n T i ≤ k ∧ k < chunkEnd n T i := by
  unfold chunkStart chunkEnd
  rcases Nat.eq_zero_or_pos (n / T) with hz | hpos
  · refine ⟨T - 1, ⟨by omega, by simp [hz], by simp [hk]⟩, ?_⟩
    rintro i ⟨hi, _, h2⟩
    by_contra hne
    rw [if_neg hne, hz] at h2
    simp at h2
  · by_cases hq : k / (n / T) < T - 1
    · have h1 : k / (n / T) * (n / T) ≤ k := Nat.div_mul_le_self k _
      have h2 : k < (k / (n / T) + 1) * (n / T) := by
        have := Nat.lt_succ_self (k / (n / T))
        exact (Nat.div_lt_iff_lt_mul hpos).mp this
      refine ⟨k / (n / T), ⟨by omega, h1, ?_⟩, ?_⟩
      · rw [if_neg (by omega)]; exact h2
      · rintro i ⟨hi, hs, he⟩
        by_cases hl : i = T - 1
        · exfalso
          have : (k / (n / T) + 1) * (n / T) ≤ i * (n / T) :=
            Nat.mul_le_mul_right _ (by omega)
          omega
        · rw [if_neg hl] at he
          have ha : i ≤ k / (n / T) := (Nat.le_div_iff_mul_le hpos).mpr hs
          have hb : k / (n / T) < i + 1 := (Nat.div_lt_iff_lt_mul hpos).mpr he
          omega
    · have h1 : (T - 1) * (n / T) ≤ k := by
        calc (T - 1) * (n / T) ≤ k / (n / T) * (n / T) := Nat.mul_le_mul_right _ (by omega)
          _ ≤ k := Nat.div_mul_le_self k _
      refine ⟨T - 1, ⟨by omega, h1, by simp [hk]⟩, ?_⟩
      rintro i ⟨hi, hs, he⟩
      by_contra hl
      rw [if_neg hl] at he
      have hb : k / (n / T) < i + 1 := (Nat.div_lt_iff_lt_mul hpos).mpr he
      omega

theorem forRange_append (a b c : Int) (h1 : a ≤ b) (h2 : b ≤ c) :
    forRange a b ++ forRange b c = forRange a c := by
  unfold forRange
  have e : (c - a).toNat = (b - a).toNat + (c - b).toNat := by omega
  rw [e, List.range_add, List.map_append, List.map_map]
  congr 1
  apply List.map_congr_left
  intro k _
  simp only [Function.comp]
  push_cast
  omega

theorem foldl_flatMap {α β σ : Type} (f : α → List β) (g : σ → β → σ) (l : List α) (s : σ) :
    (l.flatMap f).foldl g s = l.foldl (fun t a => (f a).foldl g t) s := by
  induction l generalizing s with
  | nil => rfl
  | cons a l ih =>
    rw [List.flatMap_cons, List.foldl_append, ih]
    rfl

theorem chunks_prefix (n T j : Nat) (hj : j ≤ T - 1) :
    (List.range j).flatMap
        (fun i => forRange (chunkStart n T i : Int) (chunkEnd n T i : Int)) =
      forRange 0 ((j * (n / T) : Nat) : Int) := by
  induction j with
  | zero => simp [forRange]
  | succ j ih =>
    rw [List.range_succ, List.flatMap_append, ih (by omega), List.flatMap_singleton]
    have he : chunkEnd n T j = (j + 1) * (n / T) := by
      unfold chunkEnd
      rw [if_neg (by omega)]
    rw [he]
    unfold chunkStart
    exact forRange_append 0 _ _ (Int.natCast_nonneg _)
      (Int.ofNat_le.mpr (Nat.mul_le_mul_right _ (Nat.le_succ j)))

theorem chunks_concat (n T : Nat) (hT : 1 ≤ T) :
    (List.range T).flatMap
        (fun i => forRange (chunkStart n T i : Int) (chunkEnd n T i : Int)) =
      forRange 0 (n : Int) := by
  obtain ⟨m, rfl⟩ : ∃ m, T = m + 1 := ⟨T - 1, by omega⟩
  rw [List.range_succ, List.flatMap_append, chunks_prefix n (m + 1) m (by simp),
    List.flatMap_singleton]
  have he : chunkEnd n (m + 1) m = n := by
    unfold chunkEnd
    simp
  rw [he]
  unfold chunkStart
  refine forRange_append 0 _ _ (Int.natCast_nonneg _) (Int.ofNat_le.mpr ?_)
  calc m * (n / (m + 1)) ≤ (m + 1) * (n / (m + 1)) := Nat.mul_le_mul_right _ (Nat.le_succ m)
    _ ≤ n := Nat.mul_div_le n (m + 1)

theorem update_chunks (rnd : K → K) (RAND_MAX : Nat) (rand : Nat → Nat) (hw : Nat) (dt : K)
    (s : St K) :
    update rnd RAND_MAX rand hw dt s =
      ((List.range (if hw = 0 then 2 else hw)).flatMap
        (fun i => forRange (chunkStart s.1.entityCount (if hw = 0 then 2 else hw) i : Int)
          (chunkEnd s.1.entityCount (if hw = 0 then 2 else hw) i : Int))).foldl
        (processEntity rnd RAND_MAX rand dt) s := by
  rw [foldl_flatMap]
  rfl

/-- C2: for every entity count `n` and thread count `T ≥ 1`, each chunk `[start_i, end_i)` of
`PhysicsSystem::update` lies inside `[0, n)`, and every index `k < n` belongs to exactly one
chunk: the chunks are pairwise disjoint and their union is `[0, n)`.  The index lists of the
workers `0, ..., T - 1`, one after the other, are the list `0, ..., n - 1`; and on a state of
`n` entities and with `T` threads, `update` runs `processChunk` on exactly these chunks, one
per worker `i < T`, so it processes every index of `[0, n)` exactly once: it is one pass of
`processEntity` over `0, ..., n - 1`. -/
theorem chunks_partition (n T : Nat) (hT : 1 ≤ T) :
    (∀ i, i < T → chunkStart n T i ≤ chunkEnd n T i ∧ chunkEnd n T i ≤ n) ∧
    (∀ k, k < n → ∃! i, i < T ∧ chunkStart n T i ≤ k ∧ k < chunkEnd n T i) ∧
    (List.range T).flatMap
        (fun i => forRange (chunkStart n T i : Int) (chunkEnd n T i : Int)) =
      forRange 0 (n : Int) ∧
    (∀ (rnd : K → K) (RAND_MAX : Nat) (rand : Nat → Nat) (hw : Nat) (dt : K) (s : St K),
      (if hw = 0 then 2 else hw) = T → s.1.entityCount = n →
      update rnd RAND_MAX rand hw dt s =
        (List.range T).foldl
          (fun s i => processChunk rnd RAND_MAX rand dt s (chunkStart n T i) (chunkEnd n T i))
          s ∧
      update rnd RAND_MAX rand hw dt s =
        ((List.range T).flatMap
          (fun i => forRange (chunkStart n T i : Int) (chunkEnd n T i : Int))).foldl
          (processEntity rnd RAND_MAX rand dt) s ∧
      update rnd RAND_MAX rand hw dt s = processChunk rnd RAND_MAX rand dt s 0 n) := by
  refine ⟨fun i hi => chunk_bounds n T i hi, fun k hk => chunk_cover n T hT k hk,
    chunks_concat n T hT, ?_⟩
  intro rnd RAND_MAX rand hw dt s hT' hn
  have h := update_chunks rnd RAND_MAX rand hw dt s
  rw [hT', hn] at h
  refine ⟨?_, h, ?_⟩
  · unfold update
    simp only []
    rw [hT', hn]
  · rw [h, chunks_concat n T hT]
    rfl

/-- Witness of C2: the 3 entities of `enemyRegistry` on 4 threads; the chunks are empty for
the workers 0, 1, 2 and `[0, 3)` for the last worker. -/
theorem chunks_partition_witness :
    1 ≤ 4 ∧
    (∀ i, i < 4 → chunkStart 3 4 i ≤ chunkEnd 3 4 i ∧ chunkEnd 3 4 i ≤ 3) ∧
    (∀ k, k < 3 → ∃! i, i < 4 ∧ chunkStart 3 4 i ≤ k ∧ k < chunkEnd 3 4 i) ∧
    (List.range 4).flatMap
        (fun i => forRange (chunkStart 3 4 i : Int) (chunkEnd 3 4 i : Int)) = [0, 1, 2] ∧
    update round32 32767 (fun _ => 5) 4 (1 / 2) (enemyRegistry, 0) =
      processChunk round32 32767 (fun _ => 5) (1 / 2) (enemyRegistry, 0) 0 3 :=
  have h := @chunks_partition ℚ _ 3 4 (by decide)
  ⟨by decide, h.1, h.2.1, h.2.2.1.trans (by decide),
   (h.2.2.2 round32 32767 (fun _ => 5) 4 (1 / 2) (enemyRegistry, 0) rfl rfl).2.2⟩

section

variable (rnd : K → K) (RAND_MAX : Nat) (rand : Nat → Nat) (dt : K)

theorem processEntity_invisible (s : St K) (i : Int) (h : (s.1.sprites i).isVisible = false) :
    processEntity rnd RAND_MAX rand dt s i = s := by
  simp [processEntity, h]

theorem processEntity_frame (s : St K) (i : Int) :
    (processEntity rnd RAND_MAX rand dt s i).1.sprites = s.1.sprites ∧
    (processEntity rnd RAND_MAX rand dt s i).1.colliders = s.1.colliders ∧
    (processEntity rnd RAND_MAX rand dt s i).1.nextEntity = s.1.nextEntity ∧
    (processEntity rnd RAND_MAX rand dt s i).1.entityCount = s.1.entityCount ∧
    (processEntity rnd RAND_MAX rand dt s i).1.capacity = s.1.capacity ∧
    ∀ j, j ≠ i →
      (processEntity rnd RAND_MAX rand dt s i).1.transforms j = s.1.transforms j ∧
      (processEntity rnd RAND_MAX rand dt s i).1.velocities j = s.1.velocities j := by
  unfold processEntity
  by_cases hv : (s.1.sprites i).isVisible = true
  · by_cases hc : (s.1.colliders i).type = EntityType.TYPE_COIN
    · simp only [hv, hc, Bool.not_true, Bool.false_eq_true, if_false, if_true, true_and]
      intro j hj
      simp [Function.update_noteq hj]
    · simp only [hv, hc, Bool.not_true, Bool.false_eq_true, if_false, true_and]
      intro j hj
      simp [Function.update_noteq hj]
  · simp [hv]

theorem processEntity_visible (s : St K) (i : Int) (h : (s.1.sprites i).isVisible = true) :
    (processEntity rnd RAND_MAX rand dt s i).1.transforms i = movedTransform rnd RAND_MAX rand dt s i ∧
    (processEntity rnd RAND_MAX rand dt s i).1.velocities i =
      bouncedVelocity rnd s.1 (movedTransform rnd RAND_MAX rand dt s i) i := by
  unfold processEntity movedTransform bouncedVelocity jiggled
  by_cases hc : (s.1.colliders i).type = EntityType.TYPE_COIN
  · simp [h, hc]
  · simp [h, hc]

theorem foldl_processEntity (l : List Int) (hnd : l.Nodup) (s : St K) :
    (l.foldl (processEntity rnd RAND_MAX rand dt) s).1.sprites = s.1.sprites ∧
    (l.foldl (processEntity rnd RAND_MAX rand dt) s).1.colliders = s.1.colliders ∧
    (l.foldl (processEntity rnd RAND_MAX rand dt) s).1.nextEntity = s.1.nextEntity ∧
    (l.foldl (processEntity rnd RAND_MAX rand dt) s).1.entityCount = s.1.entityCount ∧
    (l.foldl (processEntity rnd RAND_MAX rand dt) s).1.capacity = s.1.capacity ∧
    (∀ j, (j ∉ l ∨ (s.1.sprites j).isVisible = false) →
      (l.foldl (processEntity rnd RAND_MAX rand dt) s).1.transforms j = s.1.transforms j ∧
      (l.foldl (processEntity rnd RAND_MAX rand dt) s).1.velocities j = s.1.velocities j) ∧
    (∀ j, j ∈ l → (s.1.sprites j).isVisible = true → ∃ seed,
      (l.foldl (processEntity rnd RAND_MAX rand dt) s).1.transforms j =
        movedTransform rnd RAND_MAX rand dt (s.1, seed) j ∧
      (l.foldl (processEntity rnd RAND_MAX rand dt) s).1.velocities j =
        bouncedVelocity rnd s.1 (movedTransform rnd RAND_MAX rand dt (s.1, seed) j) j) := by
  induction l generalizing s with
  | nil => simp
  | cons a l ih =>
    rw [List.nodup_cons] at hnd
    obtain ⟨hs, hc, hn, he, hk, hframe, hmov⟩ := ih hnd.2 (processEntity rnd RAND_MAX rand dt s a)
    obtain ⟨fs, fc, fn, fe, fk, ffr⟩ := processEntity_frame rnd RAND_MAX rand dt s a
    simp only [List.foldl_cons]
    refine ⟨hs.trans fs, hc.trans fc, hn.trans fn, he.trans fe, hk.trans fk, ?_, ?_⟩
    · intro j hj
      by_cases hja : j = a
      · subst hja
        rcases hj with hj | hj
        · simp at hj
        · rw [processEntity_invisible rnd RAND_MAX rand dt s j hj] at hframe ⊢
          exact hframe j (Or.inr hj)
      · have h1 := hframe j (by
          rcases hj with hj | hj
          · left; intro hm; exact hj (List.mem_cons_of_mem _ hm)
          · right; rw [fs]; exact hj)
        have h2 := ffr j hja
        exact ⟨h1.1.trans h2.1, h1.2.trans h2.2⟩
    · intro j hj hv
      by_cases hja : j = a
      · subst hja
        obtain ⟨h1, h2⟩ := hframe j (Or.inl hnd.1)
        obtain ⟨g1, g2⟩ := processEntity_visible rnd RAND_MAX rand dt s j hv
        exact ⟨s.2, h1.trans g1, h2.trans g2⟩
      · have hjl : j ∈ l := by
          rcases List.mem_cons.mp hj with h | h
          · exact absurd h hja
          · exact h
        obtain ⟨seed, h1, h2⟩ := hmov j hjl (by rw [fs]; exact hv)
        obtain ⟨g1, g2⟩ := ffr j hja
        refine ⟨seed, ?_, ?_⟩
        · rw [h1]
          simp only [movedTransform, jiggled, fc, g1, g2]
        · rw [h2]
          simp only [movedTransform, jiggled, bouncedVelocity, fc, fs, g1, g2]

/-- One motion step over the chunk `[start, stop)` stores, for every visible entity of the chunk
that is not a coin, the rounded sum of its position and of the rounded product of its velocity
and `dt`. -/
theorem processChunk_integrates_rounded (s : St K) (start stop i : Int)
    (hi : start ≤ i ∧ i < stop) (hv : (s.1.sprites i).isVisible = true)
    (hty : (s.1.colliders i).type ≠ EntityType.TYPE_COIN) :
    (processChunk rnd RAND_MAX rand dt s start stop).1.transforms i =
      ⟨rnd ((s.1.transforms i).x + rnd ((s.1.velocities i).vx * dt)),
       rnd ((s.1.transforms i).y + rnd ((s.1.velocities i).vy * dt))⟩ := by
  obtain ⟨-, -, -, -, -, -, hmov⟩ :=
    foldl_processEntity rnd RAND_MAX rand dt (forRange start stop) (forRange_nodup start stop) s
  unfold processChunk
  obtain ⟨seed, ht, -⟩ := hmov i ((mem_forRange start stop i).mpr hi) hv
  rw [ht]
  simp [movedTransform, jiggled, hty]

/-- C9: one motion step over the chunk `[start, stop)` puts every visible entity of the chunk
that is not a coin at `position + velocity * dt` in exact arithmetic (the rounding is `id`),
and leaves every component of every entity whose sprite is not visible unchanged, whatever
the rounding `rnd`. -/
theorem processChunk_integrates (s : St K) (start stop : Int) :
    (∀ i, start ≤ i → i < stop → (s.1.sprites i).isVisible = true →
      (s.1.colliders i).type ≠ EntityType.TYPE_COIN →
      (processChunk id RAND_MAX rand dt s start stop).1.transforms i =
        ⟨(s.1.transforms i).x + (s.1.velocities i).vx * dt,
         (s.1.transforms i).y + (s.1.velocities i).vy * dt⟩) ∧
    (∀ j, (s.1.sprites j).isVisible = false →
      (processChunk rnd RAND_MAX rand dt s start stop).1.transforms j = s.1.transforms j ∧
      (processChunk rnd RAND_MAX rand dt s start stop).1.velocities j = s.1.velocities j ∧
      (processChunk rnd RAND_MAX rand dt s start stop).1.sprites j = s.1.sprites j ∧
      (processChunk rnd RAND_MAX rand dt s start stop).1.colliders j = s.1.colliders j ∧
      (processChunk rnd RAND_MAX rand dt s start stop).1.nextEntity j = s.1.nextEntity j) := by
  unfold processChunk
  constructor
  · intro i h1 h2 hv hty
    obtain ⟨-, -, -, -, -, -, hmov⟩ :=
      foldl_processEntity id RAND_MAX rand dt (forRange start stop) (forRange_nodup start stop) s
    obtain ⟨seed, ht, -⟩ := hmov i ((mem_forRange start stop i).mpr ⟨h1, h2⟩) hv
    rw [ht]
    simp [movedTransform, jiggled, hty]
  · intro j hj
    obtain ⟨hs, hc, hn, -, -, hframe, -⟩ :=
      foldl_processEntity rnd RAND_MAX rand dt (forRange start stop) (forRange_nodup start stop) s
    obtain ⟨h1, h2⟩ := hframe j (Or.inr hj)
    exact ⟨h1, h2, by rw [hs], by rw [hc], by rw [hn]⟩

/-- C10, amended: a visible entity of the chunk that moves rightward and whose stored `x` after
the integration (every floating-point operation rounded by `rnd`) is at or beyond
`WINDOW_WIDTH` minus its sprite width has its x-velocity negated by one motion step; its
sprite, its collider and its list-next are unchanged; its y-velocity is negated exactly when
the stored `y` is at or beyond an edge; its position is the integrated position (for an entity
that is not a coin, the rounded `position + velocity * dt`). -/
theorem processChunk_right_edge (s : St K) (start stop i : Int)
    (hi : start ≤ i ∧ i < stop) (hv : (s.1.sprites i).isVisible = true)
    (hvx : 0 < (s.1.velocities i).vx)
    (hx : ((processChunk rnd RAND_MAX rand dt s start stop).1.transforms i).x ≥
      rnd ((WINDOW_WIDTH - (s.1.sprites i).w : Int) : K)) :
    ((processChunk rnd RAND_MAX rand dt s start stop).1.velocities i).vx = -(s.1.velocities i).vx ∧
    ((processChunk rnd RAND_MAX rand dt s start stop).1.velocities i).vy =
      (if ((processChunk rnd RAND_MAX rand dt s start stop).1.transforms i).y ≤ 0 ∨
          ((processChunk rnd RAND_MAX rand dt s start stop).1.transforms i).y ≥
            rnd ((WINDOW_HEIGHT - (s.1.sprites i).h : Int) : K)
        then -(s.1.velocities i).vy else (s.1.velocities i).vy) ∧
    (processChunk rnd RAND_MAX rand dt s start stop).1.sprites i = s.1.sprites i ∧
    (processChunk rnd RAND_MAX rand dt s start stop).1.colliders i = s.1.colliders i ∧
    (processChunk rnd RAND_MAX rand dt s start stop).1.nextEntity i = s.1.nextEntity i ∧
    ((s.1.colliders i).type ≠ EntityType.TYPE_COIN →
      (processChunk rnd RAND_MAX rand dt s start stop).1.transforms i =
        ⟨rnd ((s.1.transforms i).x + rnd ((s.1.velocities i).vx * dt)),
         rnd ((s.1.transforms i).y + rnd ((s.1.velocities i).vy * dt))⟩) := by
  obtain ⟨hs, hc, hn, -, -, -, hmov⟩ :=
    foldl_processEntity rnd RAND_MAX rand dt (forRange start stop) (forRange_nodup start stop) s
  unfold processChunk at hx ⊢
  obtain ⟨seed, ht, hvel⟩ := hmov i ((mem_forRange start stop i).mpr hi) hv
  rw [ht] at hx
  have hne : (s.1.velocities i).vx ≠ 0 := ne_of_gt hvx
  refine ⟨?_, ?_, by rw [hs], by rw [hc], by rw [hn], ?_⟩
  · rw [hvel]
    unfold bouncedVelocity
    rw [if_pos (Or.inl hne), if_pos (Or.inr hx)]
    simp
  · rw [hvel, ht]
    unfold bouncedVelocity
    rw [if_pos (Or.inl hne)]
    split_ifs <;> simp
  · intro hty
    rw [ht]
    simp [movedTransform, jiggled, hty]

end

/-- Witness of C9: the enemy of `enemyRegistry` (handle 1, visible) and its destroyed coin
(handle 2, not visible, and unchanged in binary32 arithmetic), with `dt = 1/2`. -/
theorem processChunk_integrates_witness :
    (enemyRegistry.sprites 1).isVisible = true ∧
    (enemyRegistry.colliders 1).type ≠ EntityType.TYPE_COIN ∧
    (enemyRegistry.sprites 2).isVisible = false ∧
    (processChunk id 32767 (fun _ => 5) (1 / 2) (enemyRegistry, 0) 0 3).1.transforms 1 =
      ⟨(enemyRegistry.transforms 1).x + (enemyRegistry.velocities 1).vx * (1 / 2),
       (enemyRegistry.transforms 1).y + (enemyRegistry.velocities 1).vy * (1 / 2)⟩ ∧
    (processChunk round32 32767 (fun _ => 5) (1 / 2) (enemyRegistry, 0) 0 3).1.transforms 2 =
      enemyRegistry.transforms 2 :=
  ⟨by decide, by decide, by decide,
   (processChunk_integrates round32 32767 (fun _ => 5) (1 / 2) (enemyRegistry, 0) 0 3).1 1
     (by decide) (by decide) (by decide) (by decide),
   ((processChunk_integrates round32 32767 (fun _ => 5) (1 / 2) (enemyRegistry, 0) 0 3).2 2
     (by decide)).1⟩

/-- Counterexample to C10 as stated: the enemy of `cornerRegistry` moves rightward and its
integrated `x` is beyond the right edge (1290 ≥ 1280 - 30); one step in binary32 arithmetic
negates its x-velocity, and also negates its y-velocity (30 becomes -30, its integrated `y`
being beyond the bottom edge) and moves it from (1270,700) to (1290,730): components other
than the x-velocity are altered. -/
theorem processChunk_corner_flips_both :
    (cornerRegistry.sprites 0).isVisible = true ∧
    0 < (cornerRegistry.velocities 0).vx ∧
    (cornerRegistry.transforms 0).x + (cornerRegistry.velocities 0).vx * 1 ≥
      ((WINDOW_WIDTH - (cornerRegistry.sprites 0).w : Int) : ℚ) ∧
    cornerRegistry.velocities 0 = ⟨20, 30⟩ ∧
    cornerRegistry.transforms 0 = ⟨1270, 700⟩ ∧
    (processChunk round32 32767 (fun _ => 5) 1 (cornerRegistry, 0) 0 1).1.velocities 0 =
      ⟨-20, -30⟩ ∧
    (processChunk round32 32767 (fun _ => 5) 1 (cornerRegistry, 0) 0 1).1.transforms 0 =
      ⟨1290, 730⟩ ∧
    (processChunk id 32767 (fun _ => 5) 1 (cornerRegistry, 0) 0 1).1.velocities 0 =
      ⟨-20, -30⟩ ∧
    (processChunk id 32767 (fun _ => 5) 1 (cornerRegistry, 0) 0 1).1.transforms 0 =
      ⟨1290, 730⟩ := by
  decide!

/-- Witness of C10 (amended), in binary32 arithmetic: the enemy of `roundedEdgeRegistry` is
stored at (1260, 695), the sum 694 + 0.99999994 being rounded to 695, so both velocity
components are negated. -/
theorem processChunk_right_edge_witness :
    ((processChunk round32 32767 (fun _ => 5) 1 (roundedEdgeRegistry, 0) 0 1).1.velocities 0).vx =
      -10 ∧
    ((processChunk round32 32767 (fun _ => 5) 1 (roundedEdgeRegistry, 0) 0 1).1.velocities 0).vy =
      -(16777215 / 16777216) ∧
    (processChunk round32 32767 (fun _ => 5) 1 (roundedEdgeRegistry, 0) 0 1).1.sprites 0 =
      roundedEdgeRegistry.sprites 0 ∧
    (processChunk round32 32767 (fun _ => 5) 1 (roundedEdgeRegistry, 0) 0 1).1.transforms 0 =
      ⟨1260, 695⟩ :=
  have h := processChunk_right_edge round32 32767 (fun _ => 5) 1 (roundedEdgeRegistry, 0) 0 1 0
    (by decide) (by decide) (by decide!) (by decide!)
  ⟨h.1.trans (by decide!), h.2.1.trans (by decide!), h.2.2.1,
   (h.2.2.2.2.2 (by decide)).trans (by decide!)⟩

end PhysicsSystem

/-! ## Gameplay system -/

namespace GameplaySystem

variable [FloorRing K] {rnd : K → K}

/-- C8: a collision step called with `gameOver` already set returns at once: the registry,
the score, the flag, the grid heads and the occupancy counts are all exactly as before,
whatever the bound on the loops; hence a second call is again a no-op. -/
theorem update_gameOver_noop (rnd sqrt : K → K) (fuel : Nat) (playerID : Int)
    (s : Registry K × GameplaySystem) (h : s.2.gameOver = true) :
    update rnd sqrt fuel playerID s = some s ∧
    (update rnd sqrt fuel playerID s).bind (update rnd sqrt fuel playerID) = some s := by
  have h1 : update rnd sqrt fuel playerID s = some s := by simp [update, h]
  exact ⟨h1, by rw [h1]; exact h1⟩

/-- Witness of C8: the finished game `overGameplay` on `enemyRegistry`. -/
theorem update_gameOver_noop_witness :
    overGameplay.gameOver = true ∧
    update round32 (fun _ => 0) 0 0 (enemyRegistry, overGameplay) = some (enemyRegistry, overGameplay) :=
  ⟨rfl, (update_gameOver_noop round32 (fun _ => 0) 0 0 (enemyRegistry, overGameplay) rfl).1⟩

theorem GRID_COLS_eq : GRID_COLS = 21 := by decide
theorem GRID_ROWS_eq : GRID_ROWS = 12 := by decide
theorem MAX_CELLS_eq : MAX_CELLS = 252 := by decide

theorem forRange_zero_succ (n : Nat) :
    forRange 0 ((n + 1 : Nat) : Int) = forRange 0 (n : Int) ++ [(n : Int)] := by
  unfold forRange
  have h1 : (((n + 1 : Nat) : Int) - 0).toNat = n + 1 := by omega
  have h2 : ((n : Int) - 0).toNat = n := by omega
  rw [h1, h2, List.range_succ, List.map_append]
  simp

theorem cellOf_range (reg : Registry K) (i c : Int) (h : cellOf reg i = some c) :
    0 ≤ c ∧ c < MAX_CELLS := by
  unfold cellOf at h
  simp only at h
  split_ifs at h with hb
  rw [GRID_COLS_eq, GRID_ROWS_eq] at hb
  rw [MAX_CELLS_eq]
  rw [GRID_COLS_eq] at h
  simp only [Option.some.injEq] at h
  omega

theorem mem_cellMembers (reg : Registry K) (playerID c : Int) (n : Nat) (k : Int) :
    k ∈ cellMembers reg playerID c n ↔ 0 ≤ k ∧ k < n ∧ inCell reg playerID c k := by
  induction n with
  | zero =>
    simp only [cellMembers, List.not_mem_nil, false_iff]
    omega
  | succ n ih =>
    unfold cellMembers
    by_cases hc : inCell reg playerID c n
    · rw [if_pos hc, List.mem_cons, ih]
      constructor
      · rintro (h | h)
        · subst h
          exact ⟨by omega, by push_cast; omega, hc⟩
        · exact ⟨h.1, by push_cast; omega, h.2.2⟩
      · rintro ⟨h1, h2, h3⟩
        by_cases hk : k = n
        · exact Or.inl hk
        · exact Or.inr ⟨h1, by push_cast at h2; omega, h3⟩
    · rw [if_neg hc, ih]
      constructor
      · rintro ⟨h1, h2, h3⟩
        exact ⟨h1, by push_cast; omega, h3⟩
      · rintro ⟨h1, h2, h3⟩
        have hk : k ≠ n := by
          intro hk
          subst hk
          exact hc h3
        exact ⟨h1, by push_cast at h2; omega, h3⟩

theorem cellMembers_nodup (reg : Registry K) (playerID c : Int) (n : Nat) :
    (cellMembers reg playerID c n).Nodup := by
  induction n with
  | zero => simp [cellMembers]
  | succ n ih =>
    unfold cellMembers
    split_ifs with hc
    · rw [List.nodup_cons]
      refine ⟨?_, ih⟩
      rw [mem_cellMembers]
      omega
    · exact ih

theorem cellMembers_length_le (reg : Registry K) (playerID c : Int) (n : Nat) :
    (cellMembers reg playerID c n).length ≤ n := by
  induction n with
  | zero => simp [cellMembers]
  | succ n ih =>
    unfold cellMembers
    split_ifs with hc
    · simp only [List.length_cons]
      omega
    · omega

theorem IsChain_congr (nx nx' : Int → Int) (l : List Int) (h : ∀ a ∈ l, nx' a = nx a)
    (head : Int) (hc : IsChain nx head l) : IsChain nx' head l := by
  induction l generalizing head with
  | nil => exact hc
  | cons a l ih =>
    obtain ⟨h1, h2, h3⟩ := hc
    refine ⟨h1, h2, ?_⟩
    rw [h a (List.mem_cons_self a l)]
    exact ih (fun b hb => h b (List.mem_cons_of_mem a hb)) _ h3

theorem populateStep_eq (playerID : Int) (s : Registry K × GameplaySystem) (i : Int) :
    populateStep playerID s i =
      if (s.1.colliders i).isActive = true ∧ i ≠ playerID then
        match cellOf s.1 i with
        | some c =>
          ({ s.1 with nextEntity := Function.update s.1.nextEntity i (s.2.gridHead c) },
           { s.2 with
              gridHead := Function.update s.2.gridHead c i
              cellCounts := Function.update s.2.cellCounts c (s.2.cellCounts c + 1) })
        | none => s
      else s := by
  unfold populateStep cellOf
  by_cases ha : (s.1.colliders i).isActive = true
  · by_cases hp : i = playerID
    · simp [ha, hp]
    · simp only [ha, hp, Bool.not_true, Bool.false_eq_true, if_false, ne_eq, not_false_eq_true,
        and_self, if_true]
      split_ifs <;> rfl
  · simp [ha]

theorem cellOf_congr (r1 r2 : Registry K) (h : r1.transforms = r2.transforms) (i : Int) :
    cellOf r1 i = cellOf r2 i := by
  unfold cellOf
  rw [h]

theorem populated_zero (reg : Registry K) (gs : GameplaySystem) (playerID : Int) :
    Populated reg gs playerID 0 (reg, clear gs) := by
  refine ⟨rfl, rfl, rfl, rfl, rfl, rfl, rfl, rfl, ?_, ?_⟩
  · intro c h1 h2
    simp [cellMembers, IsChain, clear, fill, h1, h2]
  · intro c h1 h2
    simp [cellMembers, clear, fill, h1, h2]

theorem populated_succ (reg : Registry K) (gs : GameplaySystem) (playerID : Int) (n : Nat)
    (s : Registry K × GameplaySystem) (h : Populated reg gs playerID n s) :
    Populated reg gs playerID (n + 1) (populateStep playerID s n) := by
  rw [populateStep_eq, h.colliders, cellOf_congr s.1 reg h.transforms]
  by_cases hact : (reg.colliders n).isActive = true ∧ (n : Int) ≠ playerID
  · rw [if_pos hact]
    cases hcell : cellOf reg n with
    | none =>
      have hno : ∀ c, ¬ inCell reg playerID c n := by
        intro c hc
        rw [hc.2.2] at hcell
        exact Option.noConfusion hcell
      refine ⟨h.transforms, h.velocities, h.sprites, h.colliders, h.capacity, h.entityCount,
        h.score, h.gameOver, ?_, ?_⟩
      · intro c h1 h2
        simp only [cellMembers, if_neg (hno c)]
        exact h.chain c h1 h2
      · intro c h1 h2
        simp only [cellMembers, if_neg (hno c)]
        exact h.counts c h1 h2
    | some c0 =>
      have hin : ∀ c, inCell reg playerID c n ↔ c = c0 := by
        intro c
        unfold inCell
        rw [hcell]
        constructor
        · rintro ⟨_, _, h3⟩
          exact (Option.some.inj h3).symm
        · rintro rfl
          exact ⟨hact.1, hact.2, rfl⟩
      have hfresh : ∀ c, ∀ a ∈ cellMembers reg playerID c n,
          Function.update s.1.nextEntity (n : Int) (s.2.gridHead c0) a = s.1.nextEntity a := by
        intro c a ha
        rw [mem_cellMembers] at ha
        exact Function.update_noteq (by omega) _ _
      refine ⟨h.transforms, h.velocities, h.sprites, h.colliders, h.capacity, h.entityCount,
        h.score, h.gameOver, ?_, ?_⟩
      · intro c h1 h2
        by_cases hc : c = c0
        · subst hc
          simp only [cellMembers, if_pos ((hin c).mpr rfl), Function.update_same]
          refine ⟨rfl, by omega, ?_⟩
          have e : Function.update s.1.nextEntity (n : Int) (s.2.gridHead c) (n : Int) =
              s.2.gridHead c := Function.update_same _ _ _
          rw [e]
          exact IsChain_congr _ _ _ (hfresh c) _ (h.chain c h1 h2)
        · simp only [cellMembers, if_neg (fun hh => hc ((hin c).mp hh)),
            Function.update_noteq hc]
          exact IsChain_congr _ _ _ (hfresh c) _ (h.chain c h1 h2)
      · intro c h1 h2
        by_cases hc : c = c0
        · subst hc
          simp only [cellMembers, if_pos ((hin c).mpr rfl), Function.update_same,
            List.length_cons, h.counts c h1 h2]
          push_cast
          rfl
        · simp only [cellMembers, if_neg (fun hh => hc ((hin c).mp hh)),
            Function.update_noteq hc]
          exact h.counts c h1 h2
  · rw [if_neg hact]
    have hno : ∀ c, ¬ inCell reg playerID c n := by
      intro c hc
      exact hact ⟨hc.1, hc.2.1⟩
    refine ⟨h.transforms, h.velocities, h.sprites, h.colliders, h.capacity, h.entityCount,
      h.score, h.gameOver, ?_, ?_⟩
    · intro c h1 h2
      simp only [cellMembers, if_neg (hno c)]
      exact h.chain c h1 h2
    · intro c h1 h2
      simp only [cellMembers, if_neg (hno c)]
      exact h.counts c h1 h2

theorem populated_fold (reg : Registry K) (gs : GameplaySystem) (playerID : Int) (n : Nat) :
    Populated reg gs playerID n
      ((forRange 0 (n : Int)).foldl (populateStep playerID) (reg, clear gs)) := by
  induction n with
  | zero => exact populated_zero reg gs playerID
  | succ n ih =>
    rw [forRange_zero_succ, List.foldl_append]
    exact populated_succ reg gs playerID n _ ih

theorem populate_populated (reg : Registry K) (gs : GameplaySystem) (playerID : Int) :
    Populated reg gs playerID reg.entityCount (populate playerID (reg, clear gs)) :=
  populated_fold reg gs playerID reg.entityCount

/-! ### Loops along a chain are folds -/

theorem whileNotEnd_pure {σ : Type} (next : σ → Int → Int) (f : Int → σ → σ)
    (hnext : ∀ a s, next (f a s) = next s) (l : List Int) :
    ∀ (fuel : Nat) (cur : Int) (s : σ), IsChain (next s) cur l → l.length < fuel →
      whileNotEnd next (fun a s => some (f a s)) fuel cur s =
        some (l.foldl (fun s a => f a s) s) := by
  induction l with
  | nil =>
    intro fuel cur s hc hf
    cases fuel with
    | zero => simp at hf
    | succ fuel =>
      have h : cur = -1 := hc
      simp [whileNotEnd, h]
  | cons a l ih =>
    intro fuel cur s hc hf
    obtain ⟨h1, h2, h3⟩ := hc
    cases fuel with
    | zero => simp at hf
    | succ fuel =>
      subst h1
      simp only [whileNotEnd, if_neg h2, List.foldl_cons]
      rw [hnext]
      apply ih
      · rw [hnext]; exact h3
      · simpa using hf

theorem foldl_preserves {σ α β : Type} (g : σ → β) (f : σ → α → σ)
    (h : ∀ s a, g (f s a) = g s) (l : List α) (s : σ) : g (l.foldl f s) = g s := by
  induction l generalizing s with
  | nil => rfl
  | cons a l ih => rw [List.foldl_cons, ih, h]

theorem foldlM_some_flatMap {σ α β : Type} (P : σ → Prop) (f : σ → β → σ) (g : α → List β)
    (body : σ → α → Option σ) (l : List α) (hP : ∀ s b, P s → P (f s b))
    (hbody : ∀ a ∈ l, ∀ s, P s → body s a = some ((g a).foldl f s)) :
    ∀ s, P s → l.foldlM body s = some ((l.flatMap g).foldl f s) := by
  have hPl : ∀ (k : List β) (s : σ), P s → P (k.foldl f s) := by
    intro k
    induction k with
    | nil => intro s hs; exact hs
    | cons b k ih => intro s hs; exact ih _ (hP s b hs)
  induction l with
  | nil => intro s _; rfl
  | cons a l ih =>
    intro s hs
    rw [List.foldlM_cons, hbody a (List.mem_cons_self a l) s hs, List.flatMap_cons,
      List.foldl_append]
    exact ih (fun a' ha' => hbody a' (List.mem_cons_of_mem a ha')) _ (hPl _ _ hs)

/-! ### Phase 3 -/

theorem separatePair_nextEntity (sqrt : K → K) (reg : Registry K) (i j : Int) :
    (separatePair rnd sqrt reg i j).nextEntity = reg.nextEntity := by
  unfold separatePair
  split_ifs <;> rfl

theorem sepList_nextEntity (sqrt : K → K) (l : List Int) (reg : Registry K) :
    (sepList rnd sqrt l reg).nextEntity = reg.nextEntity := by
  induction l generalizing reg with
  | nil => rfl
  | cons a l ih =>
    rw [sepList, ih]
    exact foldl_preserves Registry.nextEntity _ (fun r b => separatePair_nextEntity sqrt r a b) l reg

theorem separateFrom_eq (sqrt : K → K) (fuel : Nat) (i : Int) (reg : Registry K) (l : List Int)
    (hc : IsChain reg.nextEntity (reg.nextEntity i) l) (hf : l.length < fuel) :
    separateFrom rnd sqrt fuel i reg = some (l.foldl (fun r b => separatePair rnd sqrt r i b) reg) :=
  whileNotEnd_pure Registry.nextEntity (fun j r => separatePair rnd sqrt r i j)
    (fun j r => separatePair_nextEntity sqrt r i j) l fuel _ reg hc hf

theorem separateWalk_eq (sqrt : K → K) (fuel : Nat) (l : List Int) :
    ∀ (fuel' : Nat) (cur : Int) (reg : Registry K), IsChain reg.nextEntity cur l →
      l.length < fuel' → l.length ≤ fuel →
      whileNotEnd Registry.nextEntity (separateFrom rnd sqrt fuel) fuel' cur reg =
        some (sepList rnd sqrt l reg) := by
  induction l with
  | nil =>
    intro fuel' cur reg hc hf _
    cases fuel' with
    | zero => simp at hf
    | succ fuel' =>
      have h : cur = -1 := hc
      simp [whileNotEnd, h, sepList]
  | cons a l ih =>
    intro fuel' cur reg hc hf hf2
    obtain ⟨h1, h2, h3⟩ := hc
    cases fuel' with
    | zero => simp at hf
    | succ fuel' =>
      subst h1
      have hl : l.length < fuel := by simpa using hf2
      have hn : (l.foldl (fun r b => separatePair rnd sqrt r cur b) reg).nextEntity = reg.nextEntity :=
        foldl_preserves Registry.nextEntity _
          (fun r b => separatePair_nextEntity sqrt r cur b) l reg
      simp only [whileNotEnd, if_neg h2, separateFrom_eq sqrt fuel cur reg l h3 hl, sepList]
      apply ih
      · rw [hn]; exact h3
      · simpa using hf
      · omega

theorem separateCell_eq (sqrt : K → K) (fuel : Nat) (head : Int → Int) (reg : Registry K)
    (c : Int) (l : List Int) (hc : IsChain reg.nextEntity (head c) l) (hf : l.length < fuel) :
    separateCell rnd sqrt fuel head reg c = some (sepList rnd sqrt l reg) :=
  separateWalk_eq sqrt fuel l fuel (head c) reg hc hf (by omega)

theorem coinSeparation_cells (sqrt : K → K) (fuel : Nat) (head : Int → Int)
    (lists : Int → List Int) (cells : List Int) (reg : Registry K)
    (hc : ∀ c ∈ cells, IsChain reg.nextEntity (head c) (lists c))
    (hf : ∀ c ∈ cells, (lists c).length < fuel) :
    cells.foldlM (separateCell rnd sqrt fuel head) reg = some (sepCells rnd sqrt lists cells reg) := by
  induction cells generalizing reg with
  | nil => rfl
  | cons c cells ih =>
    rw [List.foldlM_cons,
      separateCell_eq sqrt fuel head reg c (lists c) (hc c (List.mem_cons_self c cells))
        (hf c (List.mem_cons_self c cells))]
    simp only [sepCells, List.foldl_cons]
    apply ih
    · intro c' hc'
      rw [sepList_nextEntity]
      exact hc c' (List.mem_cons_of_mem c hc')
    · intro c' hc'
      exact hf c' (List.mem_cons_of_mem c hc')

/-! ### Phase 4 -/

theorem playerHit_miss (px py pr : K) (playerID e : Int) (s : Registry K × GameplaySystem)
    (h : ¬ hitCond rnd px py pr s.1 e) : playerHit rnd px py pr playerID e s = s := by
  simp [playerHit, h]

theorem playerHit_coin (px py pr : K) (playerID e : Int) (s : Registry K × GameplaySystem)
    (h : hitCond rnd px py pr s.1 e) (ht : (s.1.colliders e).type = EntityType.TYPE_COIN) :
    playerHit rnd px py pr playerID e s =
      (s.1.destroyEntity e, { s.2 with score := s.2.score + 1 }) := by
  simp [playerHit, h, ht]

theorem playerHit_enemy (px py pr : K) (playerID e : Int) (s : Registry K × GameplaySystem)
    (h : hitCond rnd px py pr s.1 e) (ht : (s.1.colliders e).type = EntityType.TYPE_ENEMY) :
    playerHit rnd px py pr playerID e s =
      ({ s.1 with
          velocities := Function.update s.1.velocities playerID ⟨0, 0⟩
          sprites := Function.update s.1.sprites playerID { s.1.sprites playerID with r := 100 } },
       { s.2 with gameOver := true }) := by
  simp [playerHit, h, ht]

theorem playerHit_other (px py pr : K) (playerID e : Int) (s : Registry K × GameplaySystem)
    (h1 : (s.1.colliders e).type ≠ EntityType.TYPE_COIN)
    (h2 : (s.1.colliders e).type ≠ EntityType.TYPE_ENEMY) :
    playerHit rnd px py pr playerID e s = s := by
  unfold playerHit
  simp only []
  split_ifs <;> rfl

theorem playerHit_cases (px py pr : K) (playerID e : Int) (s : Registry K × GameplaySystem) :
    playerHit rnd px py pr playerID e s = s ∨
    (hitCond rnd px py pr s.1 e ∧ (s.1.colliders e).type = EntityType.TYPE_COIN ∧
      playerHit rnd px py pr playerID e s =
        (s.1.destroyEntity e, { s.2 with score := s.2.score + 1 })) ∨
    (hitCond rnd px py pr s.1 e ∧ (s.1.colliders e).type = EntityType.TYPE_ENEMY ∧
      playerHit rnd px py pr playerID e s =
        ({ s.1 with
            velocities := Function.update s.1.velocities playerID ⟨0, 0⟩
            sprites :=
              Function.update s.1.sprites playerID { s.1.sprites playerID with r := 100 } },
         { s.2 with gameOver := true })) := by
  by_cases h : hitCond rnd px py pr s.1 e
  · by_cases hc : (s.1.colliders e).type = EntityType.TYPE_COIN
    · exact Or.inr (Or.inl ⟨h, hc, playerHit_coin px py pr playerID e s h hc⟩)
    · by_cases he : (s.1.colliders e).type = EntityType.TYPE_ENEMY
      · exact Or.inr (Or.inr ⟨h, he, playerHit_enemy px py pr playerID e s h he⟩)
      · exact Or.inl (playerHit_other px py pr playerID e s hc he)
  · exact Or.inl (playerHit_miss px py pr playerID e s h)

theorem playerHit_frame (px py pr : K) (playerID e : Int) (s : Registry K × GameplaySystem) :
    (playerHit rnd px py pr playerID e s).1.nextEntity = s.1.nextEntity ∧
    (playerHit rnd px py pr playerID e s).2.gridHead = s.2.gridHead ∧
    (playerHit rnd px py pr playerID e s).2.cellCounts = s.2.cellCounts ∧
    (playerHit rnd px py pr playerID e s).1.entityCount = s.1.entityCount ∧
    (playerHit rnd px py pr playerID e s).1.capacity = s.1.capacity := by
  rcases playerHit_cases px py pr playerID e s with h | ⟨-, -, h⟩ | ⟨-, -, h⟩ <;> rw [h] <;>
    exact ⟨rfl, rfl, rfl, rfl, rfl⟩

theorem scanCell_eq (px py pr : K) (playerID : Int) (fuel : Nat)
    (s : Registry K × GameplaySystem) (c : Int) (l : List Int)
    (hc : IsChain s.1.nextEntity (s.2.gridHead c) l) (hf : l.length < fuel) :
    scanCell rnd px py pr playerID fuel s c =
      some (l.foldl (fun t e => playerHit rnd px py pr playerID e t) s) := by
  unfold scanCell
  exact whileNotEnd_pure (fun s => s.1.nextEntity) (fun e s => playerHit rnd px py pr playerID e s)
    (fun e s => (playerHit_frame px py pr playerID e s).1) l fuel _ s hc hf

theorem playerCollision_eq (fuel : Nat) (playerID : Int) (lists : Int → List Int)
    (s : Registry K × GameplaySystem)
    (hc : ∀ c, 0 ≤ c → c < MAX_CELLS → IsChain s.1.nextEntity (s.2.gridHead c) (lists c))
    (hf : ∀ c, 0 ≤ c → c < MAX_CELLS → (lists c).length < fuel) :
    playerCollision rnd fuel playerID s = some (scanAll rnd playerID lists s) := by
  unfold playerCollision scanAll scanList
  simp only []
  have hP : ∀ (t : Registry K × GameplaySystem) (e : Int),
      (t.1.nextEntity = s.1.nextEntity ∧ t.2.gridHead = s.2.gridHead) →
      ((playerHit rnd (s.1.transforms playerID).x (s.1.transforms playerID).y
          (s.1.colliders playerID).radius playerID e t).1.nextEntity = s.1.nextEntity ∧
       (playerHit rnd (s.1.transforms playerID).x (s.1.transforms playerID).y
          (s.1.colliders playerID).radius playerID e t).2.gridHead = s.2.gridHead) := by
    intro t e ht
    obtain ⟨h1, h2, -⟩ := playerHit_frame (s.1.transforms playerID).x (s.1.transforms playerID).y
      (s.1.colliders playerID).radius playerID e t
    exact ⟨h1.trans ht.1, h2.trans ht.2⟩
  refine foldlM_some_flatMap
    (fun t => t.1.nextEntity = s.1.nextEntity ∧ t.2.gridHead = s.2.gridHead)
    (fun t e => playerHit rnd (s.1.transforms playerID).x (s.1.transforms playerID).y
      (s.1.colliders playerID).radius playerID e t) _ _ _ hP ?_ s ⟨rfl, rfl⟩
  intro x hx t ht
  refine foldlM_some_flatMap
    (fun t => t.1.nextEntity = s.1.nextEntity ∧ t.2.gridHead = s.2.gridHead)
    (fun t e => playerHit rnd (s.1.transforms playerID).x (s.1.transforms playerID).y
      (s.1.colliders playerID).radius playerID e t) _ _ _ hP ?_ t ht
  intro y hy u hu
  rw [mem_forRange] at hx hy
  have hcell : 0 ≤ y * GRID_COLS + x ∧ y * GRID_COLS + x < MAX_CELLS := by
    rw [GRID_COLS_eq] at hx ⊢
    rw [GRID_ROWS_eq] at hy
    rw [MAX_CELLS_eq]
    omega
  apply scanCell_eq
  · rw [hu.1, hu.2]
    exact hc _ hcell.1 hcell.2
  · exact hf _ hcell.1 hcell.2

theorem sepCells_nextEntity (sqrt : K → K) (lists : Int → List Int) (cells : List Int)
    (reg : Registry K) : (sepCells rnd sqrt lists cells reg).nextEntity = reg.nextEntity :=
  foldl_preserves Registry.nextEntity _ (fun r c => sepList_nextEntity sqrt (lists c) r) cells reg

/-- With a loop bound above `entityCount`, the collision step returns, and its result is the
one computed on the lists of handles. -/
theorem update_eq (sqrt : K → K) (fuel : Nat) (playerID : Int) (s : Registry K × GameplaySystem)
    (hg : s.2.gameOver = false) (hf : s.1.entityCount < fuel) :
    update rnd sqrt fuel playerID s = some (listUpdate rnd sqrt playerID s) := by
  have hpop := populate_populated s.1 s.2 playerID
  have hlen : ∀ c, (cellMembers s.1 playerID c s.1.entityCount).length < fuel := fun c =>
    lt_of_le_of_lt (cellMembers_length_le s.1 playerID c s.1.entityCount) hf
  have hsep : coinSeparation rnd sqrt fuel (populate playerID (s.1, clear s.2)).2.gridHead
      (populate playerID (s.1, clear s.2)).1 =
      some (sepCells rnd sqrt (fun c => cellMembers s.1 playerID c s.1.entityCount)
        (forRange 0 MAX_CELLS) (populate playerID (s.1, clear s.2)).1) := by
    unfold coinSeparation
    apply coinSeparation_cells
    · intro c hc
      rw [mem_forRange] at hc
      exact hpop.chain c hc.1 hc.2
    · intro c _
      exact hlen c
  unfold update
  rw [if_neg (by simp [hg])]
  simp only [hsep]
  unfold listUpdate
  apply playerCollision_eq
  · intro c h1 h2
    simp only [sepCells_nextEntity]
    exact hpop.chain c h1 h2
  · intro c _ _
    exact hlen c

theorem cellOf_coords (reg : Registry K) (i c : Int) (h : cellOf reg i = some c) :
    ∃ cx cy : Int, 0 ≤ cx ∧ cx < GRID_COLS ∧ 0 ≤ cy ∧ cy < GRID_ROWS ∧ c = cy * GRID_COLS + cx := by
  unfold cellOf at h
  simp only at h
  split_ifs at h with hb
  simp only [Option.some.injEq] at h
  exact ⟨_, _, hb.1, hb.2.1, hb.2.2.1, hb.2.2.2, h.symm⟩

theorem sum_indicator_cell (cx cy : Int) (hx : 0 ≤ cx ∧ cx < GRID_COLS)
    (hy : 0 ≤ cy ∧ cy < GRID_ROWS) (P : Int → Prop) [DecidablePred P]
    (hP : ∀ c, P c ↔ c = cy * GRID_COLS + cx) :
    (∑ row in Finset.Ico 0 GRID_ROWS, ∑ col in Finset.Ico 0 GRID_COLS,
      (if P (row * GRID_COLS + col) then (1 : Int) else 0)) = 1 := by
  have h1 : ∀ row ∈ Finset.Ico 0 GRID_ROWS, (∑ col in Finset.Ico 0 GRID_COLS,
      (if P (row * GRID_COLS + col) then (1 : Int) else 0)) = if row = cy then 1 else 0 := by
    intro row hrow
    rw [Finset.mem_Ico] at hrow
    have h2 : ∀ col ∈ Finset.Ico 0 GRID_COLS,
        (if P (row * GRID_COLS + col) then (1 : Int) else 0) =
          if col = cx then (if row = cy then 1 else 0) else 0 := by
      intro col hcol
      rw [Finset.mem_Ico] at hcol
      have : P (row * GRID_COLS + col) ↔ (col = cx ∧ row = cy) := by
        rw [hP]
        rw [GRID_COLS_eq] at hx hcol ⊢
        rw [GRID_ROWS_eq] at hy hrow
        omega
      by_cases hc : col = cx
      · by_cases hr : row = cy
        · rw [if_pos (this.mpr ⟨hc, hr⟩), if_pos hc, if_pos hr]
        · rw [if_neg (fun hh => hr (this.mp hh).2), if_pos hc, if_neg hr]
      · rw [if_neg (fun hh => hc (this.mp hh).1), if_neg hc]
    rw [Finset.sum_congr rfl h2, Finset.sum_ite_eq', if_pos (Finset.mem_Ico.mpr hx)]
  rw [Finset.sum_congr rfl h1, Finset.sum_ite_eq', if_pos (Finset.mem_Ico.mpr hy)]

theorem sum_cellMembers_length (reg : Registry K) (playerID : Int) (n : Nat) :
    (∑ row in Finset.Ico 0 GRID_ROWS, ∑ col in Finset.Ico 0 GRID_COLS,
      ((cellMembers reg playerID (row * GRID_COLS + col) n).length : Int)) =
    (((Finset.Ico (0 : Int) n).filter (fun i => onGrid reg playerID i)).card : Int) := by
  induction n with
  | zero => simp [cellMembers]
  | succ n ih =>
    have hlen : ∀ c, ((cellMembers reg playerID c (n + 1)).length : Int) =
        ((cellMembers reg playerID c n).length : Int) +
          (if inCell reg playerID c n then (1 : Int) else 0) := by
      intro c
      have e : cellMembers reg playerID c (n + 1) =
          if inCell reg playerID c n then (n : Int) :: cellMembers reg playerID c n
          else cellMembers reg playerID c n := rfl
      rw [e]
      split_ifs <;> simp
    have hIco : Finset.Ico (0 : Int) ((n + 1 : Nat) : Int) =
        insert (n : Int) (Finset.Ico (0 : Int) n) := by
      ext k
      simp only [Finset.mem_Ico, Finset.mem_insert]
      omega
    have hnot : (n : Int) ∉ (Finset.Ico (0 : Int) n).filter (fun i => onGrid reg playerID i) := by
      simp
    simp only [hlen, Finset.sum_add_distrib, ih]
    rw [hIco, Finset.filter_insert]
    by_cases hg : onGrid reg playerID n
    · rw [if_pos hg, Finset.card_insert_of_not_mem hnot]
      obtain ⟨ha, hp, hsome⟩ := hg
      obtain ⟨c0, hc0⟩ := Option.isSome_iff_exists.mp hsome
      obtain ⟨cx, cy, hx1, hx2, hy1, hy2, hc⟩ := cellOf_coords reg n c0 hc0
      have hs := sum_indicator_cell cx cy ⟨hx1, hx2⟩ ⟨hy1, hy2⟩
        (fun c => inCell reg playerID c n) (by
          intro c
          unfold inCell
          rw [hc0, ← hc]
          constructor
          · rintro ⟨_, _, h3⟩
            exact (Option.some.inj h3).symm
          · rintro rfl
            exact ⟨ha, hp, rfl⟩)
      rw [hs]
      push_cast
      rfl
    · rw [if_neg hg]
      have hz : ∀ c, ¬ inCell reg playerID c n := by
        intro c hc
        exact hg ⟨hc.1, hc.2.1, by rw [hc.2.2]; rfl⟩
      simp [hz]

theorem scanAll_frame (playerID : Int) (lists : Int → List Int) (s : Registry K × GameplaySystem) :
    (scanAll rnd playerID lists s).2.cellCounts = s.2.cellCounts ∧
    (scanAll rnd playerID lists s).2.gridHead = s.2.gridHead ∧
    (scanAll rnd playerID lists s).1.nextEntity = s.1.nextEntity ∧
    (scanAll rnd playerID lists s).1.entityCount = s.1.entityCount ∧
    (scanAll rnd playerID lists s).1.capacity = s.1.capacity := by
  unfold scanAll
  refine ⟨?_, ?_, ?_, ?_, ?_⟩
  · exact foldl_preserves (fun t : Registry K × GameplaySystem => t.2.cellCounts) _
      (fun t e => (playerHit_frame _ _ _ playerID e t).2.2.1) _ s
  · exact foldl_preserves (fun t : Registry K × GameplaySystem => t.2.gridHead) _
      (fun t e => (playerHit_frame _ _ _ playerID e t).2.1) _ s
  · exact foldl_preserves (fun t : Registry K × GameplaySystem => t.1.nextEntity) _
      (fun t e => (playerHit_frame _ _ _ playerID e t).1) _ s
  · exact foldl_preserves (fun t : Registry K × GameplaySystem => t.1.entityCount) _
      (fun t e => (playerHit_frame _ _ _ playerID e t).2.2.2.1) _ s
  · exact foldl_preserves (fun t : Registry K × GameplaySystem => t.1.capacity) _
      (fun t e => (playerHit_frame _ _ _ playerID e t).2.2.2.2) _ s

theorem update_counts_onGrid (rnd sqrt : K → K) (fuel : Nat) (playerID : Int)
    (s : Registry K × GameplaySystem) (hg : s.2.gameOver = false) (hf : s.1.entityCount < fuel) :
    ∃ s', update rnd sqrt fuel playerID s = some s' ∧
      (∑ row in Finset.Ico 0 GRID_ROWS, ∑ col in Finset.Ico 0 GRID_COLS,
        getCountInCell s'.2 col row) =
      (((Finset.Ico (0 : Int) s.1.entityCount).filter
        (fun i => (s.1.colliders i).isActive = true ∧ i ≠ playerID ∧
          (cellOf s.1 i).isSome = true)).card : Int) := by
  refine ⟨listUpdate rnd sqrt playerID s, update_eq sqrt fuel playerID s hg hf, ?_⟩
  have hpop := populate_populated s.1 s.2 playerID
  have hcnt : (listUpdate rnd sqrt playerID s).2.cellCounts =
      (populate playerID (s.1, clear s.2)).2.cellCounts := by
    unfold listUpdate
    exact (scanAll_frame playerID _ _).1
  have hsum := sum_cellMembers_length s.1 playerID s.1.entityCount
  unfold onGrid at hsum
  rw [← hsum]
  refine Finset.sum_congr rfl (fun row hrow => Finset.sum_congr rfl (fun col hcol => ?_))
  rw [Finset.mem_Ico] at hrow hcol
  unfold getCountInCell
  rw [if_neg (by omega), hcnt]
  apply hpop.counts
  · rw [GRID_COLS_eq] at hcol ⊢
    omega
  · rw [GRID_COLS_eq] at hcol ⊢
    rw [GRID_ROWS_eq] at hrow
    rw [MAX_CELLS_eq]
    omega

theorem cellOf_isSome_iff (reg : Registry K) (i : Int) :
    (cellOf reg i).isSome = true ↔
      (0 ≤ toInt ((reg.transforms i).x / (CELL_SIZE : K)) ∧
        toInt ((reg.transforms i).x / (CELL_SIZE : K)) < GRID_COLS ∧
        0 ≤ toInt ((reg.transforms i).y / (CELL_SIZE : K)) ∧
        toInt ((reg.transforms i).y / (CELL_SIZE : K)) < GRID_ROWS) := by
  unfold cellOf
  simp only []
  split_ifs with h
  · exact ⟨fun _ => h, fun _ => rfl⟩
  · exact ⟨fun e => absurd e (by simp), fun e => absurd e h⟩

/-- C1, amended: a collision step that starts with `gameOver` false returns (for every loop
bound above `entityCount`), and afterwards the sum over all grid cells `(col, row)` of
`getCountInCell col row` is the number of handles `i` in `[0, entityCount)`, other than the
player, whose collider was active and whose cell coordinates `(int)(x / 64)` and
`(int)(y / 64)`, the quotients truncated toward zero, were in `[0, GRID_COLS)` and in
`[0, GRID_ROWS)` when the step began. -/
theorem update_occupancy_sum (rnd sqrt : K → K) (fuel : Nat) (playerID : Int)
    (s : Registry K × GameplaySystem) (hg : s.2.gameOver = false) (hf : s.1.entityCount < fuel) :
    ∃ s', update rnd sqrt fuel playerID s = some s' ∧
      (∑ row in Finset.Ico 0 GRID_ROWS, ∑ col in Finset.Ico 0 GRID_COLS,
        getCountInCell s'.2 col row) =
      (((Finset.Ico (0 : Int) s.1.entityCount).filter
        (fun i => (s.1.colliders i).isActive = true ∧ i ≠ playerID ∧
          0 ≤ toInt ((s.1.transforms i).x / (CELL_SIZE : K)) ∧
          toInt ((s.1.transforms i).x / (CELL_SIZE : K)) < GRID_COLS ∧
          0 ≤ toInt ((s.1.transforms i).y / (CELL_SIZE : K)) ∧
          toInt ((s.1.transforms i).y / (CELL_SIZE : K)) < GRID_ROWS)).card : Int) := by
  obtain ⟨s', h1, h2⟩ := update_counts_onGrid rnd sqrt fuel playerID s hg hf
  refine ⟨s', h1, ?_⟩
  rw [h2]
  congr 2
  apply Finset.filter_congr
  intro i _
  rw [cellOf_isSome_iff]

/-- Witness of C1 (amended): the scenario `enemyRegistry` with the player as handle 0; the
enemy, handle 1, is the one handle that is counted. -/
theorem update_occupancy_sum_witness :
    freshGameplay.gameOver = false ∧ enemyRegistry.entityCount < 4 ∧
    ∃ s', update round32 (fun _ => 0) 4 0 (enemyRegistry, freshGameplay) = some s' ∧
      (∑ row in Finset.Ico 0 GRID_ROWS, ∑ col in Finset.Ico 0 GRID_COLS,
        getCountInCell s'.2 col row) = 1 := by
  obtain ⟨s', h1, h2⟩ :=
    update_occupancy_sum round32 (fun _ => 0) 4 0 (enemyRegistry, freshGameplay) rfl (by decide)
  exact ⟨rfl, by decide, s', h1, h2.trans (by decide!)⟩

/-- Counterexample to C1 as stated: in `leftEdgeRegistry` the one entity other than the player
is at `x = -10`, left of the window, and its cell column `floor(x / 64)` is `-1`: no active
handle other than the player has its position, or its cell `(floor(x / 64), floor(y / 64))`,
inside the grid.  Yet after one collision step the occupancy counts of the grid sum to 1,
the entity being counted in column 0. -/
theorem update_left_edge_counted :
    freshGameplay.gameOver = false ∧
    (leftEdgeRegistry.transforms 1).x < 0 ∧
    ((Finset.Ico (0 : Int) leftEdgeRegistry.entityCount).filter
      (fun i => (leftEdgeRegistry.colliders i).isActive = true ∧ i ≠ 0 ∧
        0 ≤ ⌊(leftEdgeRegistry.transforms i).x / (CELL_SIZE : ℚ)⌋ ∧
        ⌊(leftEdgeRegistry.transforms i).x / (CELL_SIZE : ℚ)⌋ < GRID_COLS ∧
        0 ≤ ⌊(leftEdgeRegistry.transforms i).y / (CELL_SIZE : ℚ)⌋ ∧
        ⌊(leftEdgeRegistry.transforms i).y / (CELL_SIZE : ℚ)⌋ < GRID_ROWS)).card = 0 ∧
    ∃ s', update round32 (fun _ => 0) 3 0 (leftEdgeRegistry, freshGameplay) = some s' ∧
      (∑ row in Finset.Ico 0 GRID_ROWS, ∑ col in Finset.Ico 0 GRID_COLS,
        getCountInCell s'.2 col row) = 1 ∧
      getCountInCell s'.2 0 1 = 1 := by
  obtain ⟨s', h1, h2⟩ :=
    update_counts_onGrid round32 (fun _ => 0) 3 0 (leftEdgeRegistry, freshGameplay) rfl
      (by decide)
  refine ⟨rfl, by decide!, by decide!, s', h1, h2.trans (by decide!), ?_⟩
  have e : s' = listUpdate round32 (fun _ => 0) 0 (leftEdgeRegistry, freshGameplay) :=
    Option.some.inj (h1.symm.trans (update_eq _ 3 0 _ rfl (by decide)))
  subst e
  decide!

/-! ### Frame of phase 3 -/

theorem separatePair_frame (sqrt : K → K) (reg : Registry K) (i j : Int) :
    (separatePair rnd sqrt reg i j).velocities = reg.velocities ∧
    (separatePair rnd sqrt reg i j).sprites = reg.sprites ∧
    (separatePair rnd sqrt reg i j).colliders = reg.colliders ∧
    (separatePair rnd sqrt reg i j).entityCount = reg.entityCount ∧
    (separatePair rnd sqrt reg i j).capacity = reg.capacity ∧
    ∀ k, ((k ≠ i ∧ k ≠ j) ∨ (reg.colliders k).type ≠ EntityType.TYPE_COIN) →
      (separatePair rnd sqrt reg i j).transforms k = reg.transforms k := by
  unfold separatePair
  by_cases h : sepCond rnd reg i j
  · rw [if_pos h]
    refine ⟨rfl, rfl, rfl, rfl, rfl, ?_⟩
    intro k hk
    have hki : k ≠ i ∧ k ≠ j := by
      rcases hk with hk | hk
      · exact hk
      · constructor
        · rintro rfl
          exact hk h.1
        · rintro rfl
          exact hk h.2.1
    simp only [Function.update_noteq hki.2, Function.update_noteq hki.1]
  · rw [if_neg h]
    exact ⟨rfl, rfl, rfl, rfl, rfl, fun _ _ => rfl⟩

theorem SepFrame.refl (l : List Int) (r : Registry K) : SepFrame l r r :=
  ⟨rfl, rfl, rfl, rfl, rfl, rfl, fun _ _ => rfl⟩

theorem SepFrame.trans {l : List Int} {r1 r2 r3 : Registry K} (h1 : SepFrame l r1 r2)
    (h2 : SepFrame l r2 r3) : SepFrame l r1 r3 :=
  ⟨h2.velocities.trans h1.velocities, h2.sprites.trans h1.sprites,
   h2.colliders.trans h1.colliders, h2.entityCount.trans h1.entityCount,
   h2.capacity.trans h1.capacity, h2.nextEntity.trans h1.nextEntity,
   fun k hk => (h2.transforms k (by rw [h1.colliders]; exact hk)).trans (h1.transforms k hk)⟩

theorem SepFrame.mono {l l' : List Int} {r1 r2 : Registry K} (h : SepFrame l r1 r2)
    (hl : ∀ k ∈ l, k ∈ l') : SepFrame l' r1 r2 :=
  ⟨h.velocities, h.sprites, h.colliders, h.entityCount, h.capacity, h.nextEntity,
   fun k hk => h.transforms k (hk.imp (fun hn hm => hn (hl k hm)) id)⟩

theorem separatePair_sepFrame (sqrt : K → K) (reg : Registry K) (i j : Int) :
    SepFrame [i, j] reg (separatePair rnd sqrt reg i j) := by
  obtain ⟨h1, h2, h3, h4, h5, h6⟩ := separatePair_frame sqrt reg i j
  refine ⟨h1, h2, h3, h4, h5, separatePair_nextEntity sqrt reg i j, ?_⟩
  intro k hk
  apply h6
  rcases hk with hk | hk
  · left
    simp only [List.mem_cons, List.mem_singleton, List.not_mem_nil, or_false, not_or] at hk
    exact hk
  · right; exact hk

theorem foldl_separatePair_sepFrame (sqrt : K → K) (a : Int) (l : List Int) (reg : Registry K) :
    SepFrame (a :: l) reg (l.foldl (fun r b => separatePair rnd sqrt r a b) reg) := by
  induction l generalizing reg with
  | nil => exact SepFrame.refl _ _
  | cons b l ih =>
    rw [List.foldl_cons]
    refine SepFrame.trans ((separatePair_sepFrame sqrt reg a b).mono ?_) ((ih _).mono ?_)
    · intro k hk
      simp only [List.mem_cons, List.mem_singleton, List.not_mem_nil, or_false] at hk ⊢
      tauto
    · intro k hk
      simp only [List.mem_cons] at hk ⊢
      tauto

theorem sepList_sepFrame (sqrt : K → K) (l : List Int) (reg : Registry K) :
    SepFrame l reg (sepList rnd sqrt l reg) := by
  induction l generalizing reg with
  | nil => exact SepFrame.refl _ _
  | cons a l ih =>
    rw [sepList]
    refine SepFrame.trans (foldl_separatePair_sepFrame sqrt a l reg) ((ih _).mono ?_)
    intro k hk
    exact List.mem_cons_of_mem a hk

theorem sepCells_sepFrame (sqrt : K → K) (lists : Int → List Int) (cells : List Int)
    (reg : Registry K) :
    SepFrame (cells.flatMap lists) reg (sepCells rnd sqrt lists cells reg) := by
  induction cells generalizing reg with
  | nil => exact SepFrame.refl _ _
  | cons c cells ih =>
    simp only [sepCells, List.foldl_cons, List.flatMap_cons]
    refine SepFrame.trans ((sepList_sepFrame sqrt (lists c) reg).mono ?_) ((ih _).mono ?_)
    · intro k hk
      exact List.mem_append_left _ hk
    · intro k hk
      exact List.mem_append_right _ hk

/-! ### The state between phase 3 and phase 4 -/

theorem mem_cells_flatMap (reg : Registry K) (playerID : Int) (n : Nat) (cells : List Int) (k : Int)
    (h : k ∈ cells.flatMap (fun c => cellMembers reg playerID c n)) :
    0 ≤ k ∧ k < n ∧ (reg.colliders k).isActive = true ∧ k ≠ playerID := by
  rw [List.mem_flatMap] at h
  obtain ⟨c, -, hk⟩ := h
  rw [mem_cellMembers] at hk
  exact ⟨hk.1, hk.2.1, hk.2.2.1, hk.2.2.2.1⟩

theorem separated_frame (sqrt : K → K) (playerID : Int) (s : Registry K × GameplaySystem) :
    (separated rnd sqrt playerID s).velocities = s.1.velocities ∧
    (separated rnd sqrt playerID s).sprites = s.1.sprites ∧
    (separated rnd sqrt playerID s).colliders = s.1.colliders ∧
    (separated rnd sqrt playerID s).entityCount = s.1.entityCount ∧
    (separated rnd sqrt playerID s).capacity = s.1.capacity ∧
    ∀ k, (k = playerID ∨ (s.1.colliders k).isActive = false ∨
        (s.1.colliders k).type ≠ EntityType.TYPE_COIN) →
      (separated rnd sqrt playerID s).transforms k = s.1.transforms k := by
  have hpop := populate_populated s.1 s.2 playerID
  have hfr := @sepCells_sepFrame K _ _ rnd sqrt
    (fun c => cellMembers s.1 playerID c s.1.entityCount)
    (forRange 0 MAX_CELLS) (populate playerID (s.1, clear s.2)).1
  refine ⟨hfr.velocities.trans hpop.velocities, hfr.sprites.trans hpop.sprites,
    hfr.colliders.trans hpop.colliders, hfr.entityCount.trans hpop.entityCount,
    hfr.capacity.trans hpop.capacity, ?_⟩
  intro k hk
  unfold separated
  rw [hfr.transforms k, hpop.transforms]
  rw [hpop.colliders]
  rcases hk with hk | hk | hk
  · left
    intro hm
    exact (mem_cells_flatMap s.1 playerID _ _ k hm).2.2.2 hk
  · left
    intro hm
    have := (mem_cells_flatMap s.1 playerID _ _ k hm).2.2.1
    rw [hk] at this
    exact Bool.noConfusion this
  · right; exact hk

theorem listUpdate_eq (sqrt : K → K) (playerID : Int) (s : Registry K × GameplaySystem) :
    listUpdate rnd sqrt playerID s =
      (scanList (fun c => cellMembers s.1 playerID c s.1.entityCount)
          (s.1.transforms playerID).x (s.1.transforms playerID).y).foldl
        (fun t e => playerHit rnd (s.1.transforms playerID).x (s.1.transforms playerID).y
          (s.1.colliders playerID).radius playerID e t)
        (separated rnd sqrt playerID s, (populate playerID (s.1, clear s.2)).2) := by
  obtain ⟨-, -, hc, -, -, ht⟩ := separated_frame sqrt playerID s
  have h1 := ht playerID (Or.inl rfl)
  unfold listUpdate scanAll
  simp only []
  unfold separated at h1 hc
  rw [h1, hc]
  rfl

theorem mem_scanList (reg : Registry K) (playerID e : Int)
    (he : 0 ≤ e ∧ e < (reg.entityCount : Int)) (hne : e ≠ playerID)
    (hact : (reg.colliders e).isActive = true) (hnb : inNeighbourhood reg playerID e) :
    e ∈ scanList (fun c => cellMembers reg playerID c reg.entityCount)
      (reg.transforms playerID).x (reg.transforms playerID).y := by
  unfold inNeighbourhood at hnb
  simp only [] at hnb
  unfold scanList
  rw [List.mem_flatMap]
  refine ⟨toInt ((reg.transforms e).x / (CELL_SIZE : K)), ?_, ?_⟩
  · rw [mem_forRange]
    omega
  rw [List.mem_flatMap]
  refine ⟨toInt ((reg.transforms e).y / (CELL_SIZE : K)), ?_, ?_⟩
  · rw [mem_forRange]
    omega
  rw [mem_cellMembers]
  refine ⟨he.1, he.2, hact, hne, ?_⟩
  unfold cellOf
  simp only []
  rw [if_pos]
  have h1 := min_le_left (GRID_COLS - 1) (toInt ((reg.transforms playerID).x / (CELL_SIZE : K)) + 1)
  have h2 := min_le_left (GRID_ROWS - 1) (toInt ((reg.transforms playerID).y / (CELL_SIZE : K)) + 1)
  have h3 := le_max_left 0 (toInt ((reg.transforms playerID).x / (CELL_SIZE : K)) - 1)
  have h4 := le_max_left 0 (toInt ((reg.transforms playerID).y / (CELL_SIZE : K)) - 1)
  omega

/-! ### Phase 4 against an enemy -/

theorem hitCond_congr (px py pr : K) (r1 r2 : Registry K) (e : Int)
    (ht : r1.transforms e = r2.transforms e)
    (hr : (r1.colliders e).radius = (r2.colliders e).radius) :
    hitCond rnd px py pr r1 e ↔ hitCond rnd px py pr r2 e := by
  unfold hitCond
  rw [ht, hr]

theorem playerHit_hitFrame (px py pr : K) (playerID e : Int) (r0 : Registry K)
    (t : Registry K × GameplaySystem) (h : HitFrame r0 t) :
    HitFrame r0 (playerHit rnd px py pr playerID e t) := by
  rcases playerHit_cases px py pr playerID e t with h1 | ⟨-, hty, h1⟩ | ⟨-, -, h1⟩
  · rw [h1]; exact h
  · rw [h1]
    refine ⟨?_, ?_, ?_⟩
    · intro k
      rw [← h.type k]
      unfold Registry.destroyEntity
      by_cases hk : k = e
      · subst hk; simp
      · simp [Function.update_noteq hk]
    · intro k
      rw [← h.radius k]
      unfold Registry.destroyEntity
      by_cases hk : k = e
      · subst hk; simp
      · simp [Function.update_noteq hk]
    · intro k hk
      rw [← h.transforms k hk]
      have hne : k ≠ e := by
        rintro rfl
        rw [h.type k] at hty
        exact hk hty
      unfold Registry.destroyEntity
      simp [Function.update_noteq hne]
  · rw [h1]
    exact ⟨h.type, h.radius, h.transforms⟩

theorem playerHit_over (px py pr : K) (playerID e : Int) (t : Registry K × GameplaySystem)
    (h : t.2.gameOver = true ∧ t.1.velocities playerID = ⟨0, 0⟩) :
    (playerHit rnd px py pr playerID e t).2.gameOver = true ∧
    (playerHit rnd px py pr playerID e t).1.velocities playerID = ⟨0, 0⟩ := by
  rcases playerHit_cases px py pr playerID e t with h1 | ⟨-, -, h1⟩ | ⟨-, -, h1⟩
  · rw [h1]; exact h
  · rw [h1]; exact ⟨h.1, h.2⟩
  · rw [h1]; exact ⟨rfl, by simp⟩

theorem foldl_playerHit_over (px py pr : K) (playerID : Int) (l : List Int)
    (t : Registry K × GameplaySystem)
    (h : t.2.gameOver = true ∧ t.1.velocities playerID = ⟨0, 0⟩) :
    (l.foldl (fun t e => playerHit rnd px py pr playerID e t) t).2.gameOver = true ∧
    (l.foldl (fun t e => playerHit rnd px py pr playerID e t) t).1.velocities playerID = ⟨0, 0⟩ := by
  induction l generalizing t with
  | nil => exact h
  | cons a l ih => exact ih _ (playerHit_over px py pr playerID a t h)

theorem foldl_playerHit_enemy (px py pr : K) (playerID : Int) (r0 : Registry K) (e : Int)
    (hty : (r0.colliders e).type = EntityType.TYPE_ENEMY) (hhit : hitCond rnd px py pr r0 e)
    (l : List Int) (he : e ∈ l) (t : Registry K × GameplaySystem) (h : HitFrame r0 t) :
    (l.foldl (fun t e => playerHit rnd px py pr playerID e t) t).2.gameOver = true ∧
    (l.foldl (fun t e => playerHit rnd px py pr playerID e t) t).1.velocities playerID = ⟨0, 0⟩ := by
  induction l generalizing t with
  | nil => simp at he
  | cons a l ih =>
    rw [List.foldl_cons]
    by_cases hae : a = e
    · subst hae
      apply foldl_playerHit_over
      have hh : hitCond rnd px py pr t.1 a :=
        (hitCond_congr px py pr t.1 r0 a (h.transforms a (by rw [hty]; decide))
          (h.radius a)).mpr hhit
      rw [playerHit_enemy px py pr playerID a t hh ((h.type a).trans hty)]
      exact ⟨rfl, by simp⟩
    · have hel : e ∈ l := by
        rcases List.mem_cons.mp he with h' | h'
        · exact absurd h'.symm hae
        · exact h'
      exact ih hel _ (playerHit_hitFrame px py pr playerID a r0 t h)

/-- C6, amended: when the step starts with `gameOver` false and some active enemy `e` (a handle
below `entityCount`, other than the player) lies in the 3x3 cell neighbourhood of the player
and passes the collision test as the step computes it, every floating-point operation rounded
by `rnd` (the rounded differences inside the 40-unit window, and the rounded squared distance
below the rounded square of the rounded sum of the radii), then the step returns (for every
loop bound above `entityCount`) with `gameOver` set and the velocity of the player equal to
(0,0). -/
theorem update_enemy_gameOver (rnd sqrt : K → K) (fuel : Nat) (playerID e : Int)
    (s : Registry K × GameplaySystem) (hg : s.2.gameOver = false) (hf : s.1.entityCount < fuel)
    (he : 0 ≤ e ∧ e < (s.1.entityCount : Int)) (hne : e ≠ playerID)
    (hact : (s.1.colliders e).isActive = true)
    (hty : (s.1.colliders e).type = EntityType.TYPE_ENEMY)
    (hnb : inNeighbourhood s.1 playerID e)
    (hhit : hitCond rnd (s.1.transforms playerID).x (s.1.transforms playerID).y
      (s.1.colliders playerID).radius s.1 e) :
    ∃ s', update rnd sqrt fuel playerID s = some s' ∧ s'.2.gameOver = true ∧
      s'.1.velocities playerID = ⟨0, 0⟩ := by
  refine ⟨listUpdate rnd sqrt playerID s, update_eq sqrt fuel playerID s hg hf, ?_⟩
  obtain ⟨-, -, hc, -, -, ht⟩ := separated_frame sqrt playerID s
  rw [listUpdate_eq]
  apply foldl_playerHit_enemy _ _ _ playerID (separated rnd sqrt playerID s) e
  · rw [hc]; exact hty
  · refine (hitCond_congr _ _ _ _ s.1 e (ht e (Or.inr (Or.inr (by rw [hty]; decide)))) ?_).mpr hhit
    rw [hc]
  · exact mem_scanList s.1 playerID e he hne hact hnb
  · exact ⟨fun _ => rfl, fun _ => rfl, fun _ _ => rfl⟩

/-- Witness of C6 (amended), in binary32 arithmetic: the scenario of the spec, the player
(radius 15) at (640,360) and the enemy (radius 12) at (645,360). -/
theorem update_enemy_gameOver_witness :
    (enemyRegistry.transforms 0 = ⟨640, 360⟩ ∧ (enemyRegistry.colliders 0).radius = 15 ∧
      enemyRegistry.transforms 1 = ⟨645, 360⟩ ∧ (enemyRegistry.colliders 1).radius = 12) ∧
    ∃ s', update round32 (fun _ => 0) 4 0 (enemyRegistry, freshGameplay) = some s' ∧
      s'.2.gameOver = true ∧ s'.1.velocities 0 = ⟨0, 0⟩ :=
  ⟨by decide!,
   update_enemy_gameOver round32 (fun _ => 0) 4 0 1 (enemyRegistry, freshGameplay) rfl (by decide)
    (by decide) (by decide) (by decide) (by decide) (by decide!) (by decide!)⟩

/-- Counterexample to C6 as stated: in `nearEnemyRegistry` the active enemy 1 is in the player's
3x3 cell neighbourhood, inside the 40-unit window, and its squared distance to the player is
below the squared sum of the radii, 729; but the squared distance computed in binary32 is
729, the test `distSq < rTotal * rTotal` of the step fails, and the step ends with `gameOver`
false and the velocity of the player unchanged. -/
theorem update_near_enemy_missed :
    freshGameplay.gameOver = false ∧
    ((nearEnemyRegistry.colliders 1).isActive = true ∧
      (nearEnemyRegistry.colliders 1).type = EntityType.TYPE_ENEMY ∧
      inNeighbourhood nearEnemyRegistry 0 1) ∧
    (|(nearEnemyRegistry.transforms 0).x - (nearEnemyRegistry.transforms 1).x| < 40 ∧
      |(nearEnemyRegistry.transforms 0).y - (nearEnemyRegistry.transforms 1).y| < 40 ∧
      ((nearEnemyRegistry.transforms 0).x - (nearEnemyRegistry.transforms 1).x) *
          ((nearEnemyRegistry.transforms 0).x - (nearEnemyRegistry.transforms 1).x) +
        ((nearEnemyRegistry.transforms 0).y - (nearEnemyRegistry.transforms 1).y) *
          ((nearEnemyRegistry.transforms 0).y - (nearEnemyRegistry.transforms 1).y) <
      ((nearEnemyRegistry.colliders 0).radius + (nearEnemyRegistry.colliders 1).radius) *
        ((nearEnemyRegistry.colliders 0).radius + (nearEnemyRegistry.colliders 1).radius)) ∧
    round32 (round32 (round32 (640 - 10365863 / 16384) * round32 (640 - 10365863 / 16384)) +
      round32 (round32 (360 - 2736215 / 8192) * round32 (360 - 2736215 / 8192))) = 729 ∧
    ¬ hitCond round32 (nearEnemyRegistry.transforms 0).x (nearEnemyRegistry.transforms 0).y
        (nearEnemyRegistry.colliders 0).radius nearEnemyRegistry 1 ∧
    (update round32 (fun _ => 0) 3 0 (nearEnemyRegistry, freshGameplay)).map
        (fun s' => (s'.2.gameOver, s'.1.velocities 0)) = some (false, ⟨350, 0⟩) := by
  decide!

/-! ### Phase 3 on a cell of two coins -/

theorem isChain_two (nx : Int → Int) (head i j : Int) (l : List Int) (hc : IsChain nx head l)
    (h1 : head = i) (h2 : nx i = j) (h3 : nx j = -1) (hi : i ≠ -1) (hj : j ≠ -1) :
    l = [i, j] := by
  cases l with
  | nil => exact absurd (h1.symm.trans hc) hi
  | cons a l =>
    obtain ⟨ha, -, hc⟩ := hc
    have hai : a = i := ha.symm.trans h1
    subst hai
    rw [h2] at hc
    cases l with
    | nil => exact absurd hc hj
    | cons b l =>
      obtain ⟨hb, -, hc⟩ := hc
      subst hb
      rw [h3] at hc
      cases l with
      | nil => rfl
      | cons x l => exact absurd hc.1.symm hc.2.1

theorem sepCond_congr (r1 r2 : Registry K) (i j : Int)
    (hti : r1.transforms i = r2.transforms i) (htj : r1.transforms j = r2.transforms j)
    (hc : r1.colliders = r2.colliders) : sepCond rnd r1 i j ↔ sepCond rnd r2 i j := by
  unfold sepCond
  rw [hti, htj, hc]

theorem separatePair_apply (sqrt : K → K) (reg : Registry K) (i j : Int) (hij : i ≠ j)
    (h : sepCond id reg i j) :
    (separatePair id sqrt reg i j).transforms i =
      ⟨(reg.transforms i).x +
        ((reg.transforms i).x - (reg.transforms j).x) /
          sqrt (((reg.transforms i).x - (reg.transforms j).x) *
              ((reg.transforms i).x - (reg.transforms j).x) +
            ((reg.transforms i).y - (reg.transforms j).y) *
              ((reg.transforms i).y - (reg.transforms j).y)) *
        (((reg.colliders i).radius + (reg.colliders j).radius -
          sqrt (((reg.transforms i).x - (reg.transforms j).x) *
              ((reg.transforms i).x - (reg.transforms j).x) +
            ((reg.transforms i).y - (reg.transforms j).y) *
              ((reg.transforms i).y - (reg.transforms j).y))) * (1 / 2)),
       (reg.transforms i).y +
        ((reg.transforms i).y - (reg.transforms j).y) /
          sqrt (((reg.transforms i).x - (reg.transforms j).x) *
              ((reg.transforms i).x - (reg.transforms j).x) +
            ((reg.transforms i).y - (reg.transforms j).y) *
              ((reg.transforms i).y - (reg.transforms j).y)) *
        (((reg.colliders i).radius + (reg.colliders j).radius -
          sqrt (((reg.transforms i).x - (reg.transforms j).x) *
              ((reg.transforms i).x - (reg.transforms j).x) +
            ((reg.transforms i).y - (reg.transforms j).y) *
              ((reg.transforms i).y - (reg.transforms j).y))) * (1 / 2))⟩ ∧
    (separatePair id sqrt reg i j).transforms j =
      ⟨(reg.transforms j).x -
        ((reg.transforms i).x - (reg.transforms j).x) /
          sqrt (((reg.transforms i).x - (reg.transforms j).x) *
              ((reg.transforms i).x - (reg.transforms j).x) +
            ((reg.transforms i).y - (reg.transforms j).y) *
              ((reg.transforms i).y - (reg.transforms j).y)) *
        (((reg.colliders i).radius + (reg.colliders j).radius -
          sqrt (((reg.transforms i).x - (reg.transforms j).x) *
              ((reg.transforms i).x - (reg.transforms j).x) +
            ((reg.transforms i).y - (reg.transforms j).y) *
              ((reg.transforms i).y - (reg.transforms j).y))) * (1 / 2)),
       (reg.transforms j).y -
        ((reg.transforms i).y - (reg.transforms j).y) /
          sqrt (((reg.transforms i).x - (reg.transforms j).x) *
              ((reg.transforms i).x - (reg.transforms j).x) +
            ((reg.transforms i).y - (reg.transforms j).y) *
              ((reg.transforms i).y - (reg.transforms j).y)) *
        (((reg.colliders i).radius + (reg.colliders j).radius -
          sqrt (((reg.transforms i).x - (reg.transforms j).x) *
              ((reg.transforms i).x - (reg.transforms j).x) +
            ((reg.transforms i).y - (reg.transforms j).y) *
              ((reg.transforms i).y - (reg.transforms j).y))) * (1 / 2))⟩ := by
  unfold separatePair
  rw [if_pos h]
  simp only [id_eq]
  constructor
  · rw [Function.update_noteq hij, Function.update_same]
  · rw [Function.update_same, Function.update_noteq hij.symm]

theorem separatePair_congr (sqrt : K → K) (r1 r2 : Registry K) (i j : Int) (hij : i ≠ j)
    (hti : r1.transforms i = r2.transforms i) (htj : r1.transforms j = r2.transforms j)
    (hc : r1.colliders = r2.colliders) :
    (separatePair rnd sqrt r1 i j).transforms i = (separatePair rnd sqrt r2 i j).transforms i ∧
    (separatePair rnd sqrt r1 i j).transforms j = (separatePair rnd sqrt r2 i j).transforms j := by
  by_cases h : sepCond rnd r1 i j
  · have h' := (sepCond_congr r1 r2 i j hti htj hc).mp h
    unfold separatePair
    rw [if_pos h, if_pos h']
    simp only [Function.update_noteq hij, Function.update_same, Function.update_noteq hij.symm,
      hti, htj, hc, and_self]
  · have h' : ¬ sepCond rnd r2 i j := fun hh => h ((sepCond_congr r1 r2 i j hti htj hc).mpr hh)
    unfold separatePair
    rw [if_neg h, if_neg h']
    exact ⟨hti, htj⟩

theorem sepList_two (sqrt : K → K) (i j : Int) (reg : Registry K) :
    sepList rnd sqrt [i, j] reg = separatePair rnd sqrt reg i j := rfl

theorem sepCells_pair (sqrt : K → K) (lists : Int → List Int) (c i j : Int) (hij : i ≠ j)
    (hl : lists c = [i, j]) (cells : List Int) (hnd : cells.Nodup) (hc : c ∈ cells)
    (hother : ∀ c' ∈ cells, c' ≠ c → i ∉ lists c' ∧ j ∉ lists c') (reg : Registry K) :
    (sepCells rnd sqrt lists cells reg).transforms i = (separatePair rnd sqrt reg i j).transforms i ∧
    (sepCells rnd sqrt lists cells reg).transforms j = (separatePair rnd sqrt reg i j).transforms j := by
  induction cells generalizing reg with
  | nil => simp at hc
  | cons c0 rest ih =>
    rw [List.nodup_cons] at hnd
    have hstep : sepCells rnd sqrt lists (c0 :: rest) reg =
        sepCells rnd sqrt lists rest (sepList rnd sqrt (lists c0) reg) := rfl
    rw [hstep]
    by_cases h0 : c0 = c
    · subst h0
      rw [hl, sepList_two]
      have hfr := @sepCells_sepFrame K _ _ rnd sqrt lists rest (separatePair rnd sqrt reg i j)
      have hnot : ∀ k, (k = i ∨ k = j) → k ∉ rest.flatMap lists := by
        intro k hk hm
        rw [List.mem_flatMap] at hm
        obtain ⟨c', hc', hkc⟩ := hm
        have hne : c' ≠ c0 := by
          rintro rfl
          exact hnd.1 hc'
        have := hother c' (List.mem_cons_of_mem _ hc') hne
        rcases hk with rfl | rfl
        · exact this.1 hkc
        · exact this.2 hkc
      exact ⟨hfr.transforms i (Or.inl (hnot i (Or.inl rfl))),
        hfr.transforms j (Or.inl (hnot j (Or.inr rfl)))⟩
    · have hcr : c ∈ rest := by
        rcases List.mem_cons.mp hc with h | h
        · exact absurd h.symm h0
        · exact h
      have hfr := @sepList_sepFrame K _ _ rnd sqrt (lists c0) reg
      have hno := hother c0 (List.mem_cons_self _ _) h0
      obtain ⟨e1, e2⟩ := ih hnd.2 hcr
        (fun c' hc' hne => hother c' (List.mem_cons_of_mem _ hc') hne)
        (sepList rnd sqrt (lists c0) reg)
      obtain ⟨g1, g2⟩ := separatePair_congr sqrt (sepList rnd sqrt (lists c0) reg) reg i j hij
        (hfr.transforms i (Or.inl hno.1)) (hfr.transforms j (Or.inl hno.2)) hfr.colliders
      exact ⟨e1.trans g1, e2.trans g2⟩

/-! ### Phase 4 on an entity that is not hit -/

theorem playerHit_keeps (px py pr : K) (playerID e k : Int) (r0 : Registry K)
    (t : Registry K × GameplaySystem) (hno : ¬ hitCond rnd px py pr r0 k)
    (h : t.1.transforms k = r0.transforms k ∧
      (t.1.colliders k).radius = (r0.colliders k).radius) :
    (playerHit rnd px py pr playerID e t).1.transforms k = r0.transforms k ∧
    ((playerHit rnd px py pr playerID e t).1.colliders k).radius = (r0.colliders k).radius := by
  rcases playerHit_cases px py pr playerID e t with h1 | ⟨hh, -, h1⟩ | ⟨-, -, h1⟩
  · rw [h1]; exact h
  · rw [h1]
    have hne : k ≠ e := by
      rintro rfl
      exact hno ((hitCond_congr px py pr t.1 r0 k h.1 h.2).mp hh)
    unfold Registry.destroyEntity
    simp only [Function.update_noteq hne]
    exact h
  · rw [h1]; exact h

theorem foldl_playerHit_keeps (px py pr : K) (playerID k : Int) (r0 : Registry K)
    (hno : ¬ hitCond rnd px py pr r0 k) (l : List Int) (t : Registry K × GameplaySystem)
    (h : t.1.transforms k = r0.transforms k ∧
      (t.1.colliders k).radius = (r0.colliders k).radius) :
    (l.foldl (fun t e => playerHit rnd px py pr playerID e t) t).1.transforms k =
      r0.transforms k := by
  induction l generalizing t with
  | nil => exact h.1
  | cons a l ih => exact ih _ (playerHit_keeps px py pr playerID a k r0 t hno h)

theorem cellMembers_disjoint (reg : Registry K) (playerID : Int) (n : Nat) (c c' k : Int)
    (h : k ∈ cellMembers reg playerID c n) (h' : k ∈ cellMembers reg playerID c' n) : c' = c := by
  rw [mem_cellMembers] at h h'
  have := h.2.2.2.2.symm.trans h'.2.2.2.2
  exact (Option.some.inj this).symm

/-- The exact effect of the step on a cell whose list is `[i, j]`, two coins that phase 3
separates and phase 4 does not hit: both end where `separatePair` puts them. -/
theorem listUpdate_pair (sqrt : K → K) (playerID c i j : Int) (s : Registry K × GameplaySystem)
    (hc : 0 ≤ c ∧ c < MAX_CELLS)
    (hhead : (populate playerID (s.1, clear s.2)).2.gridHead c = i)
    (hnext : (populate playerID (s.1, clear s.2)).1.nextEntity i = j)
    (hlast : (populate playerID (s.1, clear s.2)).1.nextEntity j = -1)
    (hi : i ≠ -1) (hj : j ≠ -1)
    (hmi : ¬ hitCond rnd (s.1.transforms playerID).x (s.1.transforms playerID).y
      (s.1.colliders playerID).radius (separatePair rnd sqrt s.1 i j) i)
    (hmj : ¬ hitCond rnd (s.1.transforms playerID).x (s.1.transforms playerID).y
      (s.1.colliders playerID).radius (separatePair rnd sqrt s.1 i j) j) :
    i ≠ j ∧
    (listUpdate rnd sqrt playerID s).1.transforms i = (separatePair rnd sqrt s.1 i j).transforms i ∧
    (listUpdate rnd sqrt playerID s).1.transforms j = (separatePair rnd sqrt s.1 i j).transforms j := by
  have hpop := populate_populated s.1 s.2 playerID
  have hM : cellMembers s.1 playerID c s.1.entityCount = [i, j] :=
    isChain_two _ _ i j _ (hpop.chain c hc.1 hc.2) hhead hnext hlast hi hj
  have hij : i ≠ j := by
    have hnd := cellMembers_nodup s.1 playerID c s.1.entityCount
    rw [hM] at hnd
    intro h
    rw [h] at hnd
    simp at hnd
  have hmem : ∀ k, (k = i ∨ k = j) → k ∈ cellMembers s.1 playerID c s.1.entityCount := by
    intro k hk
    rw [hM]
    rcases hk with rfl | rfl <;> simp
  obtain ⟨e1, e2⟩ := sepCells_pair sqrt (fun c => cellMembers s.1 playerID c s.1.entityCount)
    c i j hij hM (forRange 0 MAX_CELLS) (forRange_nodup 0 MAX_CELLS)
    ((mem_forRange 0 MAX_CELLS c).mpr hc)
    (fun c' _ hne => ⟨fun h => hne (cellMembers_disjoint s.1 playerID _ c c' i
        (hmem i (Or.inl rfl)) h),
      fun h => hne (cellMembers_disjoint s.1 playerID _ c c' j (hmem j (Or.inr rfl)) h)⟩)
    (populate playerID (s.1, clear s.2)).1
  obtain ⟨g1, g2⟩ := separatePair_congr sqrt (populate playerID (s.1, clear s.2)).1 s.1 i j hij
    (by rw [hpop.transforms]) (by rw [hpop.transforms]) hpop.colliders
  have f1 : (separated rnd sqrt playerID s).transforms i = (separatePair rnd sqrt s.1 i j).transforms i :=
    e1.trans g1
  have f2 : (separated rnd sqrt playerID s).transforms j = (separatePair rnd sqrt s.1 i j).transforms j :=
    e2.trans g2
  obtain ⟨-, -, hcol, -, -, -⟩ := separated_frame sqrt playerID s
  have hcol2 : (separatePair rnd sqrt s.1 i j).colliders = s.1.colliders :=
    (separatePair_frame sqrt s.1 i j).2.2.1
  refine ⟨hij, ?_, ?_⟩
  · rw [listUpdate_eq, ← f1]
    apply foldl_playerHit_keeps
    · intro hh
      exact hmi ((hitCond_congr _ _ _ _ _ i f1 (by rw [hcol, hcol2])).mp hh)
    · exact ⟨rfl, rfl⟩
  · rw [listUpdate_eq, ← f2]
    apply foldl_playerHit_keeps
    · intro hh
      exact hmj ((hitCond_congr _ _ _ _ _ j f2 (by rw [hcol, hcol2])).mp hh)
    · exact ⟨rfl, rfl⟩

/-- The effect of the step on a cell of two overlapping coins inside the 20-unit window, for
a square root that is exact on their squared distance. -/
theorem separates_pair_exact (sqrt : K → K) (fuel : Nat) (playerID c i j : Int)
    (s : Registry K × GameplaySystem) (dx dy d rT : K)
    (hg : s.2.gameOver = false) (hf : s.1.entityCount < fuel)
    (hc : 0 ≤ c ∧ c < MAX_CELLS)
    (hhead : (populate playerID (s.1, clear s.2)).2.gridHead c = i)
    (hnext : (populate playerID (s.1, clear s.2)).1.nextEntity i = j)
    (hlast : (populate playerID (s.1, clear s.2)).1.nextEntity j = -1)
    (hi : i ≠ -1) (hj : j ≠ -1)
    (hti : (s.1.colliders i).type = EntityType.TYPE_COIN)
    (htj : (s.1.colliders j).type = EntityType.TYPE_COIN)
    (hdx : dx = (s.1.transforms i).x - (s.1.transforms j).x)
    (hdy : dy = (s.1.transforms i).y - (s.1.transforms j).y)
    (hrT : rT = (s.1.colliders i).radius + (s.1.colliders j).radius)
    (hd : 0 ≤ d ∧ d * d = dx * dx + dy * dy) (hsqrt : sqrt (dx * dx + dy * dy) = d)
    (hwin : |dx| < 20 ∧ |dy| < 20)
    (hgt : dx * dx + dy * dy > 1 / 10000) (hlt : d < rT)
    (hmi : ¬ hitCond id (s.1.transforms playerID).x (s.1.transforms playerID).y
      (s.1.colliders playerID).radius (separatePair id sqrt s.1 i j) i)
    (hmj : ¬ hitCond id (s.1.transforms playerID).x (s.1.transforms playerID).y
      (s.1.colliders playerID).radius (separatePair id sqrt s.1 i j) j) :
    ∃ s', update id sqrt fuel playerID s = some s' ∧
      s'.1.transforms i =
        ⟨(s.1.transforms i).x + dx / d * ((rT - d) * (1 / 2)),
         (s.1.transforms i).y + dy / d * ((rT - d) * (1 / 2))⟩ ∧
      s'.1.transforms j =
        ⟨(s.1.transforms j).x - dx / d * ((rT - d) * (1 / 2)),
         (s.1.transforms j).y - dy / d * ((rT - d) * (1 / 2))⟩ ∧
      ((s'.1.transforms i).x - (s'.1.transforms j).x) *
          ((s'.1.transforms i).x - (s'.1.transforms j).x) +
        ((s'.1.transforms i).y - (s'.1.transforms j).y) *
          ((s'.1.transforms i).y - (s'.1.transforms j).y) = rT * rT := by
  obtain ⟨hij, h1, h2⟩ := listUpdate_pair sqrt playerID c i j s hc hhead hnext hlast hi hj hmi hmj
  have hd0 : d ≠ 0 := by
    intro h0
    rw [h0] at hd
    have : (0 : K) < 1 / 10000 := by norm_num
    have h3 := hd.2
    simp only [mul_zero] at h3
    rw [← h3] at hgt
    exact lt_irrefl _ (lt_trans this hgt)
  have hsq : dx * dx + dy * dy < rT * rT := by
    rw [← hd.2]
    exact mul_self_lt_mul_self hd.1 hlt
  have hsc : sepCond id s.1 i j := by
    unfold sepCond
    simp only []
    rw [← hdx, ← hdy, ← hrT]
    exact ⟨hti, htj, hwin.1, hwin.2, hsq, hgt⟩
  obtain ⟨a1, a2⟩ := separatePair_apply sqrt s.1 i j hij hsc
  rw [← hdx, ← hdy, ← hrT, hsqrt] at a1 a2
  have e1 := h1.trans a1
  have e2 := h2.trans a2
  refine ⟨listUpdate id sqrt playerID s, update_eq sqrt fuel playerID s hg hf, e1, e2, ?_⟩
  rw [e1, e2]
  simp only []
  have hx : (s.1.transforms i).x + dx / d * ((rT - d) * (1 / 2)) -
      ((s.1.transforms j).x - dx / d * ((rT - d) * (1 / 2))) = dx * rT / d := by
    rw [hdx]
    field_simp
    ring
  have hy : (s.1.transforms i).y + dy / d * ((rT - d) * (1 / 2)) -
      ((s.1.transforms j).y - dy / d * ((rT - d) * (1 / 2))) = dy * rT / d := by
    rw [hdy]
    field_simp
    ring
  rw [hx, hy]
  field_simp
  linear_combination (rT * rT) * hd.2.symm

/-- The same over the real numbers with the real square root, which is exact everywhere:
no condition on the square root is left. -/
theorem separates_pair_real (fuel : Nat) (playerID c i j : Int)
    (s : Registry ℝ × GameplaySystem) (dx dy rT : ℝ)
    (hg : s.2.gameOver = false) (hf : s.1.entityCount < fuel)
    (hc : 0 ≤ c ∧ c < MAX_CELLS)
    (hhead : (populate playerID (s.1, clear s.2)).2.gridHead c = i)
    (hnext : (populate playerID (s.1, clear s.2)).1.nextEntity i = j)
    (hlast : (populate playerID (s.1, clear s.2)).1.nextEntity j = -1)
    (hi : i ≠ -1) (hj : j ≠ -1)
    (hti : (s.1.colliders i).type = EntityType.TYPE_COIN)
    (htj : (s.1.colliders j).type = EntityType.TYPE_COIN)
    (hdx : dx = (s.1.transforms i).x - (s.1.transforms j).x)
    (hdy : dy = (s.1.transforms i).y - (s.1.transforms j).y)
    (hrT : rT = (s.1.colliders i).radius + (s.1.colliders j).radius)
    (hwin : |dx| < 20 ∧ |dy| < 20)
    (hgt : dx * dx + dy * dy > 1 / 10000) (hlt : Real.sqrt (dx * dx + dy * dy) < rT)
    (hmi : ¬ hitCond id (s.1.transforms playerID).x (s.1.transforms playerID).y
      (s.1.colliders playerID).radius (separatePair id Real.sqrt s.1 i j) i)
    (hmj : ¬ hitCond id (s.1.transforms playerID).x (s.1.transforms playerID).y
      (s.1.colliders playerID).radius (separatePair id Real.sqrt s.1 i j) j) :
    ∃ s', update id Real.sqrt fuel playerID s = some s' ∧
      s'.1.transforms i =
        ⟨(s.1.transforms i).x +
          dx / Real.sqrt (dx * dx + dy * dy) * ((rT - Real.sqrt (dx * dx + dy * dy)) * (1 / 2)),
         (s.1.transforms i).y +
          dy / Real.sqrt (dx * dx + dy * dy) * ((rT - Real.sqrt (dx * dx + dy * dy)) * (1 / 2))⟩ ∧
      s'.1.transforms j =
        ⟨(s.1.transforms j).x -
          dx / Real.sqrt (dx * dx + dy * dy) * ((rT - Real.sqrt (dx * dx + dy * dy)) * (1 / 2)),
         (s.1.transforms j).y -
          dy / Real.sqrt (dx * dx + dy * dy) * ((rT - Real.sqrt (dx * dx + dy * dy)) * (1 / 2))⟩ ∧
      ((s'.1.transforms i).x - (s'.1.transforms j).x) *
          ((s'.1.transforms i).x - (s'.1.transforms j).x) +
        ((s'.1.transforms i).y - (s'.1.transforms j).y) *
          ((s'.1.transforms i).y - (s'.1.transforms j).y) = rT * rT :=
  separates_pair_exact Real.sqrt fuel playerID c i j s dx dy (Real.sqrt (dx * dx + dy * dy)) rT
    hg hf hc hhead hnext hlast hi hj hti htj hdx hdy hrT
    ⟨Real.sqrt_nonneg _,
      Real.mul_self_sqrt (add_nonneg (mul_self_nonneg dx) (mul_self_nonneg dy))⟩
    rfl hwin hgt hlt hmi hmj

/-- C7, amended: in exact arithmetic (the rounding is `id`), let two coins `i` and `j` be the
only two members of the list of a cell `c` (`i` at its head), at centre distance `d` with
`d * d > 0.0001` and `d < r_i + r_j`, inside the 20-unit window (`|dx| < 20` and `|dy| < 20`),
neither being hit by the player check once separated, and let the square root be exact on
their squared distance.  Then the step returns
(for every loop bound above `entityCount`), `i` has moved by `(r_i + r_j - d) / 2` along the
unit vector `(dx, dy) / d` from `j` to `i`, `j` by as much in the opposite direction, and their
squared distance is `(r_i + r_j)` squared. -/
theorem update_separates_pair (sqrt : K → K) (fuel : Nat) (playerID c i j : Int)
    (s : Registry K × GameplaySystem) (dx dy d rT : K)
    (hg : s.2.gameOver = false) (hf : s.1.entityCount < fuel)
    (hc : 0 ≤ c ∧ c < MAX_CELLS)
    (hhead : (populate playerID (s.1, clear s.2)).2.gridHead c = i)
    (hnext : (populate playerID (s.1, clear s.2)).1.nextEntity i = j)
    (hlast : (populate playerID (s.1, clear s.2)).1.nextEntity j = -1)
    (hi : i ≠ -1) (hj : j ≠ -1)
    (hti : (s.1.colliders i).type = EntityType.TYPE_COIN)
    (htj : (s.1.colliders j).type = EntityType.TYPE_COIN)
    (hdx : dx = (s.1.transforms i).x - (s.1.transforms j).x)
    (hdy : dy = (s.1.transforms i).y - (s.1.transforms j).y)
    (hrT : rT = (s.1.colliders i).radius + (s.1.colliders j).radius)
    (hd : 0 ≤ d ∧ d * d = dx * dx + dy * dy) (hsqrt : sqrt (dx * dx + dy * dy) = d)
    (hwin : |dx| < 20 ∧ |dy| < 20)
    (hgt : dx * dx + dy * dy > 1 / 10000) (hlt : d < rT)
    (hmi : ¬ hitCond id (s.1.transforms playerID).x (s.1.transforms playerID).y
      (s.1.colliders playerID).radius (separatePair id sqrt s.1 i j) i)
    (hmj : ¬ hitCond id (s.1.transforms playerID).x (s.1.transforms playerID).y
      (s.1.colliders playerID).radius (separatePair id sqrt s.1 i j) j) :
    ∃ s', update id sqrt fuel playerID s = some s' ∧
      s'.1.transforms i =
        ⟨(s.1.transforms i).x + dx / d * ((rT - d) * (1 / 2)),
         (s.1.transforms i).y + dy / d * ((rT - d) * (1 / 2))⟩ ∧
      s'.1.transforms j =
        ⟨(s.1.transforms j).x - dx / d * ((rT - d) * (1 / 2)),
         (s.1.transforms j).y - dy / d * ((rT - d) * (1 / 2))⟩ ∧
      ((s'.1.transforms i).x - (s'.1.transforms j).x) *
          ((s'.1.transforms i).x - (s'.1.transforms j).x) +
        ((s'.1.transforms i).y - (s'.1.transforms j).y) *
          ((s'.1.transforms i).y - (s'.1.transforms j).y) = rT * rT :=
  separates_pair_exact sqrt fuel playerID c i j s dx dy d rT hg hf hc hhead hnext hlast hi hj hti
    htj hdx hdy hrT hd hsqrt hwin hgt hlt hmi hmj

/-- Witness of C7 (amended): the spec scenario, two coins of radius 8 at (100,100) and
(105,100); they end at x = 94.5 and x = 110.5, at distance 16 (in binary32 arithmetic too,
every intermediate value being representable). -/
theorem update_separates_pair_witness :
    (update round32 (fun _ => (5 : ℚ)) 4 0 (coinsRegistry, freshGameplay)).map
        (fun s' => (s'.1.transforms 2, s'.1.transforms 1)) =
      some (⟨221 / 2, 100⟩, ⟨189 / 2, 100⟩) ∧
    ∃ s', update id (fun _ => (5 : ℚ)) 4 0 (coinsRegistry, freshGameplay) = some s' ∧
      s'.1.transforms 2 =
        ⟨(coinsRegistry.transforms 2).x + 5 / 5 * ((16 - 5) * (1 / 2)),
         (coinsRegistry.transforms 2).y + 0 / 5 * ((16 - 5) * (1 / 2))⟩ ∧
      s'.1.transforms 1 =
        ⟨(coinsRegistry.transforms 1).x - 5 / 5 * ((16 - 5) * (1 / 2)),
         (coinsRegistry.transforms 1).y - 0 / 5 * ((16 - 5) * (1 / 2))⟩ ∧
      ((s'.1.transforms 2).x - (s'.1.transforms 1).x) *
          ((s'.1.transforms 2).x - (s'.1.transforms 1).x) +
        ((s'.1.transforms 2).y - (s'.1.transforms 1).y) *
          ((s'.1.transforms 2).y - (s'.1.transforms 1).y) = 16 * 16 :=
  ⟨by decide!,
   update_separates_pair (fun _ => (5 : ℚ)) 4 0 22 2 1 (coinsRegistry, freshGameplay) 5 0 5 16
    rfl (by decide) (by decide) (by decide!) (by decide!) (by decide!) (by decide) (by decide)
    (by decide) (by decide) (by decide!) (by decide!) (by decide!) (by decide!) (by decide!)
    (by decide!) (by decide!) (by decide!) (by decide!) (by decide!)⟩

/-- Counterexample to C7 as stated: two coins of radius 30 at (100,100) and (125,100) are the
only two members of the list of cell 22, their distance 25 satisfies `25 * 25 > 0.0001` and
`25 < 30 + 30`, and the player at (640,360) hits neither; yet the step leaves both where they
were, at distance 25 and not 60, because `|dx| = 25` is outside the 20-unit window (in exact
and in binary32 arithmetic alike). -/
theorem update_wide_pair_unmoved :
    ((populate 0 (wideCoinsRegistry, clear freshGameplay)).2.gridHead 22 = 2 ∧
      (populate 0 (wideCoinsRegistry, clear freshGameplay)).1.nextEntity 2 = 1 ∧
      (populate 0 (wideCoinsRegistry, clear freshGameplay)).1.nextEntity 1 = -1) ∧
    ((wideCoinsRegistry.colliders 2).type = EntityType.TYPE_COIN ∧
      (wideCoinsRegistry.colliders 1).type = EntityType.TYPE_COIN) ∧
    ((25 : ℚ) * 25 =
        ((wideCoinsRegistry.transforms 2).x - (wideCoinsRegistry.transforms 1).x) *
          ((wideCoinsRegistry.transforms 2).x - (wideCoinsRegistry.transforms 1).x) +
        ((wideCoinsRegistry.transforms 2).y - (wideCoinsRegistry.transforms 1).y) *
          ((wideCoinsRegistry.transforms 2).y - (wideCoinsRegistry.transforms 1).y) ∧
      (25 : ℚ) * 25 > 1 / 10000 ∧
      (25 : ℚ) < (wideCoinsRegistry.colliders 2).radius + (wideCoinsRegistry.colliders 1).radius) ∧
    (update id (fun _ => (25 : ℚ)) 4 0 (wideCoinsRegistry, freshGameplay)).map
        (fun s' => (s'.1.transforms 2, s'.1.transforms 1, s'.2.score)) =
      some (wideCoinsRegistry.transforms 2, wideCoinsRegistry.transforms 1, 0) ∧
    (update round32 (fun _ => (25 : ℚ)) 4 0 (wideCoinsRegistry, freshGameplay)).map
        (fun s' => (s'.1.transforms 2, s'.1.transforms 1, s'.2.score)) =
      some (wideCoinsRegistry.transforms 2, wideCoinsRegistry.transforms 1, 0) ∧
    wideCoinsRegistry.transforms 2 = ⟨125, 100⟩ ∧ wideCoinsRegistry.transforms 1 = ⟨100, 100⟩ := by
  decide!

/-! ### Phase 4 meets every handle at most once -/

theorem scanList_nodup (reg : Registry K) (playerID : Int) (n : Nat) (px py : K) :
    (scanList (fun c => cellMembers reg playerID c n) px py).Nodup := by
  unfold scanList
  rw [List.nodup_flatMap]
  constructor
  · intro x hx
    rw [List.nodup_flatMap]
    constructor
    · intro y _
      exact cellMembers_nodup reg playerID _ n
    · refine List.Pairwise.imp_of_mem ?_ (forRange_nodup _ _)
      intro y y' hy hy' hne
      rw [mem_forRange] at hx hy hy'
      intro k hk hk'
      have h := cellMembers_disjoint reg playerID n _ _ k hk hk'
      rw [GRID_COLS_eq] at h
      apply hne
      omega
  · refine List.Pairwise.imp_of_mem ?_ (forRange_nodup _ _)
    intro x x' hx hx' hne
    rw [mem_forRange] at hx hx'
    intro k hk hk'
    rw [List.mem_flatMap] at hk hk'
    obtain ⟨y, hy, hk⟩ := hk
    obtain ⟨y', hy', hk'⟩ := hk'
    have h := cellMembers_disjoint reg playerID n _ _ k hk hk'
    rw [GRID_COLS_eq] at h hx hx'
    apply hne
    have h1 := min_le_left ((21 : Int) - 1) (toInt (px / (CELL_SIZE : K)) + 1)
    have h3 := le_max_left (0 : Int) (toInt (px / (CELL_SIZE : K)) - 1)
    omega

theorem mem_scanList_iff (reg : Registry K) (playerID : Int) (n : Nat) (k : Int)
    (h : k ∈ scanList (fun c => cellMembers reg playerID c n) (reg.transforms playerID).x
      (reg.transforms playerID).y) :
    0 ≤ k ∧ k < n ∧ (reg.colliders k).isActive = true ∧ k ≠ playerID := by
  unfold scanList at h
  rw [List.mem_flatMap] at h
  obtain ⟨x, -, h⟩ := h
  rw [List.mem_flatMap] at h
  obtain ⟨y, -, h⟩ := h
  rw [mem_cellMembers] at h
  exact ⟨h.1, h.2.1, h.2.2.1, h.2.2.2.1⟩

theorem foldl_playerHit_none (px py pr : K) (playerID : Int) (l : List Int)
    (t : Registry K × GameplaySystem) (h : ∀ a ∈ l, ¬ hitCond rnd px py pr t.1 a) :
    l.foldl (fun t e => playerHit rnd px py pr playerID e t) t = t := by
  induction l with
  | nil => rfl
  | cons a l ih =>
    rw [List.foldl_cons, playerHit_miss px py pr playerID a t (h a (List.mem_cons_self a l))]
    exact ih (fun b hb => h b (List.mem_cons_of_mem a hb))

theorem hitCond_destroy (px py pr : K) (reg : Registry K) (k a : Int) (h : a ≠ k) :
    hitCond rnd px py pr (reg.destroyEntity k) a ↔ hitCond rnd px py pr reg a := by
  apply hitCond_congr
  · unfold Registry.destroyEntity
    simp [Function.update_noteq h]
  · unfold Registry.destroyEntity
    simp [Function.update_noteq h]

theorem foldl_playerHit_one_coin (px py pr : K) (playerID k : Int) (l : List Int)
    (hnd : l.Nodup) (hk : k ∈ l) (t : Registry K × GameplaySystem)
    (hty : (t.1.colliders k).type = EntityType.TYPE_COIN) (hhit : hitCond rnd px py pr t.1 k)
    (hoth : ∀ a ∈ l, a ≠ k → ¬ hitCond rnd px py pr t.1 a) :
    l.foldl (fun t e => playerHit rnd px py pr playerID e t) t =
      (t.1.destroyEntity k, { t.2 with score := t.2.score + 1 }) := by
  induction l with
  | nil => simp at hk
  | cons a l ih =>
    rw [List.nodup_cons] at hnd
    rw [List.foldl_cons]
    by_cases hak : a = k
    · subst hak
      rw [playerHit_coin px py pr playerID a t hhit hty]
      apply foldl_playerHit_none
      intro b hb
      have hba : b ≠ a := by
        rintro rfl
        exact hnd.1 hb
      rw [hitCond_destroy px py pr t.1 a b hba]
      exact hoth b (List.mem_cons_of_mem a hb) hba
    · rw [playerHit_miss px py pr playerID a t (hoth a (List.mem_cons_self a l) hak)]
      have hkl : k ∈ l := by
        rcases List.mem_cons.mp hk with h | h
        · exact absurd h.symm hak
        · exact h
      exact ih hnd.2 hkl (fun b hb => hoth b (List.mem_cons_of_mem a hb))

theorem afterSeparation_eq (sqrt : K → K) (fuel : Nat) (playerID : Int)
    (s : Registry K × GameplaySystem) (hf : s.1.entityCount < fuel) :
    afterSeparation rnd sqrt fuel playerID s = some (separated rnd sqrt playerID s) := by
  have hpop := populate_populated s.1 s.2 playerID
  unfold afterSeparation coinSeparation separated
  apply coinSeparation_cells
  · intro c hc
    rw [mem_forRange] at hc
    exact hpop.chain c hc.1 hc.2
  · intro c _
    exact lt_of_le_of_lt (cellMembers_length_le s.1 playerID c s.1.entityCount) hf

theorem listUpdate_no_hit (sqrt : K → K) (playerID : Int) (s : Registry K × GameplaySystem)
    (h : ∀ a, 0 ≤ a → a < (s.1.entityCount : Int) → a ≠ playerID →
      (s.1.colliders a).isActive = true →
      ¬ hitCond rnd (s.1.transforms playerID).x (s.1.transforms playerID).y
        (s.1.colliders playerID).radius (separated rnd sqrt playerID s) a) :
    listUpdate rnd sqrt playerID s =
      (separated rnd sqrt playerID s, (populate playerID (s.1, clear s.2)).2) := by
  rw [listUpdate_eq]
  refine foldl_playerHit_none _ _ _ playerID _
    (separated rnd sqrt playerID s, (populate playerID (s.1, clear s.2)).2) ?_
  intro a ha
  have hm := mem_scanList_iff s.1 playerID s.1.entityCount a ha
  dsimp only
  exact h a hm.1 hm.2.1 hm.2.2.2 hm.2.2.1

theorem listUpdate_one_coin (rnd sqrt : K → K) (playerID k : Int) (s : Registry K × GameplaySystem)
    (hk : 0 ≤ k ∧ k < (s.1.entityCount : Int)) (hne : k ≠ playerID)
    (hact : (s.1.colliders k).isActive = true)
    (hty : (s.1.colliders k).type = EntityType.TYPE_COIN)
    (hnb : inNeighbourhood s.1 playerID k)
    (hhit : hitCond rnd (s.1.transforms playerID).x (s.1.transforms playerID).y
      (s.1.colliders playerID).radius (separated rnd sqrt playerID s) k)
    (hoth : ∀ a, 0 ≤ a → a < (s.1.entityCount : Int) → a ≠ k → a ≠ playerID →
      (s.1.colliders a).isActive = true →
      ¬ hitCond rnd (s.1.transforms playerID).x (s.1.transforms playerID).y
        (s.1.colliders playerID).radius (separated rnd sqrt playerID s) a) :
    listUpdate rnd sqrt playerID s =
      ((separated rnd sqrt playerID s).destroyEntity k,
       { (populate playerID (s.1, clear s.2)).2 with
          score := (populate playerID (s.1, clear s.2)).2.score + 1 }) := by
  rw [listUpdate_eq]
  have key := foldl_playerHit_one_coin (s.1.transforms playerID).x (s.1.transforms playerID).y
    (s.1.colliders playerID).radius playerID k _
    (scanList_nodup s.1 playerID s.1.entityCount (s.1.transforms playerID).x
      (s.1.transforms playerID).y)
    (mem_scanList s.1 playerID k hk hne hact hnb)
    (separated rnd sqrt playerID s, (populate playerID (s.1, clear s.2)).2)
    (by
      dsimp only
      rw [(separated_frame sqrt playerID s).2.2.1]
      exact hty)
    (by
      dsimp only
      exact hhit)
    (by
      intro a ha hak
      have hm := mem_scanList_iff s.1 playerID s.1.entityCount a ha
      dsimp only
      exact hoth a hm.1 hm.2.1 hak hm.2.2.2 hm.2.2.1)
  dsimp only at key
  exact key

/-- C5, amended: let the step start with `gameOver` false, let `r3` be the registry after its
separation pass, and let exactly one active coin `k` of the player's 3x3 cell neighbourhood
collide with the player at its position in `r3`, no other active entity colliding with the
player in `r3`; an entity collides when it passes the test as the step computes it, every
floating-point operation rounded by `rnd` (the rounded differences inside the 40-unit window,
and the rounded squared distance below the rounded square of the rounded sum of the radii).
Then the step
returns with the score increased by exactly one and with the sprite of `k` invisible and its
collider inactive; and a second step on the resulting state, in which again no active entity
collides with the player after the separation pass, returns with the score unchanged: the
collected coin is inactive and is not counted again. -/
theorem update_collects_coin (rnd sqrt : K → K) (fuel : Nat) (playerID k : Int)
    (s : Registry K × GameplaySystem) (r3 : Registry K)
    (hg : s.2.gameOver = false) (hf : s.1.entityCount < fuel)
    (hr3 : afterSeparation rnd sqrt fuel playerID s = some r3)
    (hk : 0 ≤ k ∧ k < (s.1.entityCount : Int)) (hne : k ≠ playerID)
    (hact : (s.1.colliders k).isActive = true)
    (hty : (s.1.colliders k).type = EntityType.TYPE_COIN)
    (hnb : inNeighbourhood s.1 playerID k)
    (hhit : hitCond rnd (s.1.transforms playerID).x (s.1.transforms playerID).y
      (s.1.colliders playerID).radius r3 k)
    (hoth : ∀ a, 0 ≤ a → a < (s.1.entityCount : Int) → a ≠ k → a ≠ playerID →
      (s.1.colliders a).isActive = true →
      ¬ hitCond rnd (s.1.transforms playerID).x (s.1.transforms playerID).y
        (s.1.colliders playerID).radius r3 a) :
    ∃ s1, update rnd sqrt fuel playerID s = some s1 ∧ s1.2.score = s.2.score + 1 ∧
      (s1.1.sprites k).isVisible = false ∧ (s1.1.colliders k).isActive = false ∧
      ((∀ r3', afterSeparation rnd sqrt fuel playerID s1 = some r3' →
          ∀ a, 0 ≤ a → a < (s1.1.entityCount : Int) → a ≠ playerID →
            (s1.1.colliders a).isActive = true →
            ¬ hitCond rnd (s1.1.transforms playerID).x (s1.1.transforms playerID).y
              (s1.1.colliders playerID).radius r3' a) →
        ∃ s2, update rnd sqrt fuel playerID s1 = some s2 ∧ s2.2.score = s1.2.score) := by
  have hr : r3 = separated rnd sqrt playerID s :=
    Option.some.inj (hr3.symm.trans (afterSeparation_eq sqrt fuel playerID s hf))
  subst hr
  have hpop := populate_populated s.1 s.2 playerID
  have hstep := listUpdate_one_coin rnd sqrt playerID k s hk hne hact hty hnb hhit hoth
  have hupd := @update_eq K _ _ rnd sqrt fuel playerID s hg hf
  obtain ⟨s1, hs1⟩ : ∃ s1, s1 = listUpdate rnd sqrt playerID s := ⟨_, rfl⟩
  rw [← hs1] at hstep hupd
  have hscore : s1.2.score = s.2.score + 1 := by
    rw [hstep]
    show (populate playerID (s.1, clear s.2)).2.score + 1 = s.2.score + 1
    rw [hpop.score]
  have hover : s1.2.gameOver = false := by
    rw [hstep]
    show (populate playerID (s.1, clear s.2)).2.gameOver = false
    rw [hpop.gameOver]
    exact hg
  have hcount : s1.1.entityCount = s.1.entityCount := by
    rw [hstep]
    show (separated rnd sqrt playerID s).entityCount = s.1.entityCount
    exact (separated_frame sqrt playerID s).2.2.2.1
  refine ⟨s1, hupd, hscore, ?_, ?_, ?_⟩
  · rw [hstep]
    simp [Registry.destroyEntity]
  · rw [hstep]
    simp [Registry.destroyEntity]
  · intro h2
    have hf1 : s1.1.entityCount < fuel := by rw [hcount]; exact hf
    have hno := listUpdate_no_hit sqrt playerID s1
      (h2 _ (afterSeparation_eq sqrt fuel playerID s1 hf1))
    refine ⟨listUpdate rnd sqrt playerID s1, update_eq sqrt fuel playerID s1 hover hf1, ?_⟩
    rw [hno]
    exact (populate_populated s1.1 s1.2 playerID).score

/-- Witness of C5 (amended), in binary32 arithmetic: in `pickupRegistry` the coin 1 is 10 away
from the player and is collected by the first step; the second step leaves the score at 1. -/
theorem update_collects_coin_witness :
    ∃ s1, update round32 (fun _ => (0 : ℚ)) 4 0 (pickupRegistry, freshGameplay) = some s1 ∧
      s1.2.score = freshGameplay.score + 1 ∧
      (s1.1.sprites 1).isVisible = false ∧ (s1.1.colliders 1).isActive = false ∧
      ∃ s2, update round32 (fun _ => (0 : ℚ)) 4 0 s1 = some s2 ∧ s2.2.score = s1.2.score := by
  obtain ⟨s1, h1, h2, h3, h4, h5⟩ :=
    update_collects_coin round32 (fun _ => (0 : ℚ)) 4 0 1 (pickupRegistry, freshGameplay)
      (separated round32 (fun _ => (0 : ℚ)) 0 (pickupRegistry, freshGameplay)) rfl (by decide)
      (afterSeparation_eq _ 4 0 _ (by decide)) (by decide) (by decide) (by decide) (by decide)
      (by decide!) (by decide!) (by decide!)
  refine ⟨s1, h1, h2, h3, h4, h5 ?_⟩
  have e : s1 = listUpdate round32 (fun _ => (0 : ℚ)) 0 (pickupRegistry, freshGameplay) :=
    Option.some.inj (h1.symm.trans (update_eq _ 4 0 _ rfl (by decide)))
  subst e
  intro r3 hr3
  have e3 : r3 = separated round32 (fun _ => (0 : ℚ)) 0
      (listUpdate round32 (fun _ => (0 : ℚ)) 0 (pickupRegistry, freshGameplay)) :=
    Option.some.inj (hr3.symm.trans (afterSeparation_eq _ 4 0 _ (by decide!)))
  subst e3
  decide!

/-- The collision test is the computed one: in `nearCoinRegistry` the one coin is in the
player's 3x3 cell neighbourhood, inside the 40-unit window, and its squared distance to the
player is below the squared sum of the radii, 529; the squared distance computed in binary32
is 529, and the step leaves the score at 0 and the coin visible and active. -/
theorem update_near_coin_missed :
    freshGameplay.gameOver = false ∧
    ((nearCoinRegistry.colliders 1).isActive = true ∧
      (nearCoinRegistry.colliders 1).type = EntityType.TYPE_COIN ∧
      inNeighbourhood nearCoinRegistry 0 1) ∧
    hitCond id (nearCoinRegistry.transforms 0).x (nearCoinRegistry.transforms 0).y
      (nearCoinRegistry.colliders 0).radius nearCoinRegistry 1 ∧
    round32 (round32 (round32 (640 - 10835383 / 16384) * round32 (640 - 10835383 / 16384)) +
      round32 (round32 (360 - 359853 / 1024) * round32 (360 - 359853 / 1024))) = 529 ∧
    ¬ hitCond round32 (nearCoinRegistry.transforms 0).x (nearCoinRegistry.transforms 0).y
        (nearCoinRegistry.colliders 0).radius nearCoinRegistry 1 ∧
    (update round32 (fun _ => 0) 3 0 (nearCoinRegistry, freshGameplay)).map
        (fun s' => (s'.2.score, (s'.1.sprites 1).isVisible, (s'.1.colliders 1).isActive)) =
      some (0, true, true) := by
  decide!

/-- Counterexample to C5 as stated: in `pushedCoinRegistry` the coin 1 is the only entity that
collides with the player (distance 22.5 < 15 + 8, inside the 40-unit window, in the player's
neighbourhood; the coin 2 is at squared distance 542.25 ≥ 529), in exact arithmetic and in
binary32 arithmetic alike, all values being representable.  Yet one step leaves the score at 0
and the coin 1 visible and active: the separation pass, which runs before the player check,
has pushed the coins 1 and 2 apart (their distance is 6, the one square root taken is that of
36), and the coin 1 out of reach, to (662.5, 365) at squared distance 531.25 ≥ 529. -/
theorem update_pushed_coin_missed :
    freshGameplay.gameOver = false ∧
    ((pushedCoinRegistry.colliders 1).isActive = true ∧
      (pushedCoinRegistry.colliders 1).type = EntityType.TYPE_COIN ∧
      inNeighbourhood pushedCoinRegistry 0 1 ∧
      hitCond id (pushedCoinRegistry.transforms 0).x (pushedCoinRegistry.transforms 0).y
        (pushedCoinRegistry.colliders 0).radius pushedCoinRegistry 1 ∧
      hitCond round32 (pushedCoinRegistry.transforms 0).x (pushedCoinRegistry.transforms 0).y
        (pushedCoinRegistry.colliders 0).radius pushedCoinRegistry 1) ∧
    (¬ hitCond id (pushedCoinRegistry.transforms 0).x (pushedCoinRegistry.transforms 0).y
        (pushedCoinRegistry.colliders 0).radius pushedCoinRegistry 2 ∧
      ¬ hitCond round32 (pushedCoinRegistry.transforms 0).x (pushedCoinRegistry.transforms 0).y
        (pushedCoinRegistry.colliders 0).radius pushedCoinRegistry 2) ∧
    (update round32 (fun _ => (6 : ℚ)) 4 0 (pushedCoinRegistry, freshGameplay)).map
        (fun s' => (s'.2.score, (s'.1.sprites 1).isVisible, (s'.1.colliders 1).isActive,
          s'.1.transforms 1)) =
      some (0, true, true, ⟨1325 / 2, 365⟩) ∧
    (update id (fun _ => (6 : ℚ)) 4 0 (pushedCoinRegistry, freshGameplay)).map
        (fun s' => (s'.2.score, (s'.1.sprites 1).isVisible, (s'.1.colliders 1).isActive,
          s'.1.transforms 1)) =
      some (0, true, true, ⟨1325 / 2, 365⟩) := by
  decide!

end GameplaySystem

/-! ## Grid dimensions -/

/-- Counterexample to C11 as stated: the grid has 21 columns, while `ceil(1280 / 64)` is 20. -/
theorem grid_cols_not_ceil :
    GRID_COLS = 21 ∧ ⌈(WINDOW_WIDTH : ℚ) / (CELL_SIZE : ℚ)⌉ = 20 ∧
    GRID_COLS ≠ ⌈(WINDOW_WIDTH : ℚ) / (CELL_SIZE : ℚ)⌉ := by
  decide!

/-- C11, amended: the grid has `floor(width / cellSize) + 1` columns and
`floor(height / cellSize) + 1` rows, that is 21 columns (one more than `ceil(1280 / 64) = 20`,
as 64 divides 1280) and 12 rows (which is `ceil(720 / 64)`), and `MAX_CELLS` is their product,
252. -/
theorem grid_dimensions :
    GRID_COLS = ⌊(WINDOW_WIDTH : ℚ) / (CELL_SIZE : ℚ)⌋ + 1 ∧ GRID_COLS = 21 ∧
    GRID_ROWS = ⌊(WINDOW_HEIGHT : ℚ) / (CELL_SIZE : ℚ)⌋ + 1 ∧
    GRID_ROWS = ⌈(WINDOW_HEIGHT : ℚ) / (CELL_SIZE : ℚ)⌉ ∧ GRID_ROWS = 12 ∧
    MAX_CELLS = GRID_COLS * GRID_ROWS ∧ MAX_CELLS = 252 := by
  decide!

namespace GameplaySystem

variable [FloorRing K] {rnd : K → K}

/-! ### The lists after the populate phase -/

theorem foldl_snoc (l acc : List Int) : l.foldl (fun acc a => acc ++ [a]) acc = acc ++ l := by
  induction l generalizing acc with
  | nil => simp
  | cons a l ih => rw [List.foldl_cons, ih]; simp

theorem cellList_of_chain (fuel : Nat) (s : Registry K × GameplaySystem) (c : Int)
    (l : List Int) (hc : IsChain s.1.nextEntity (s.2.gridHead c) l) (hf : l.length < fuel) :
    cellList fuel s c = some l := by
  unfold cellList
  rw [whileNotEnd_pure (fun _ : List Int => s.1.nextEntity) (fun e acc => acc ++ [e])
    (fun _ _ => rfl) l fuel _ [] hc hf, foldl_snoc]
  rfl

theorem cellList_populate (reg : Registry K) (gs : GameplaySystem) (playerID : Int) (fuel : Nat)
    (hf : reg.entityCount < fuel) (c : Int) (hc : 0 ≤ c ∧ c < MAX_CELLS) :
    cellList fuel (populate playerID (reg, clear gs)) c =
      some (cellMembers reg playerID c reg.entityCount) :=
  cellList_of_chain fuel _ c _ ((populate_populated reg gs playerID).chain c hc.1 hc.2)
    (lt_of_le_of_lt (cellMembers_length_le reg playerID c reg.entityCount) hf)

theorem toInt_of_nonneg (q : K) (h : 0 ≤ q) : toInt q = ⌊q⌋ := by
  unfold toInt
  rw [if_pos h]

theorem toInt_of_neg (q : K) (h1 : -1 < q) (h2 : q < 0) : toInt q = 0 := by
  unfold toInt
  rw [if_neg (not_le.mpr h2), Int.ceil_eq_iff]
  constructor
  · simpa using h1
  · simpa using le_of_lt h2

theorem cellOf_eq_some_iff (reg : Registry K) (i c : Int) :
    cellOf reg i = some c ↔
      (0 ≤ toInt ((reg.transforms i).x / (CELL_SIZE : K)) ∧
        toInt ((reg.transforms i).x / (CELL_SIZE : K)) < GRID_COLS ∧
        0 ≤ toInt ((reg.transforms i).y / (CELL_SIZE : K)) ∧
        toInt ((reg.transforms i).y / (CELL_SIZE : K)) < GRID_ROWS ∧
        c = toInt ((reg.transforms i).y / (CELL_SIZE : K)) * GRID_COLS +
          toInt ((reg.transforms i).x / (CELL_SIZE : K))) := by
  unfold cellOf
  simp only []
  split_ifs with h
  · simp only [Option.some.injEq]
    constructor
    · intro e
      exact ⟨h.1, h.2.1, h.2.2.1, h.2.2.2, e.symm⟩
    · intro e
      exact e.2.2.2.2.symm
  · constructor
    · intro e
      exact absurd e (by simp)
    · intro e
      exact absurd ⟨e.1, e.2.1, e.2.2.1, e.2.2.2.1⟩ h

theorem cell_size_pos : (0 : K) < (CELL_SIZE : K) := by
  have : (CELL_SIZE : K) = 64 := by
    unfold CELL_SIZE
    norm_num
  rw [this]
  norm_num

/-- C12, amended: the populate phase links every active non-player entity `i` below
`entityCount`, at position `(x, y)`, into the list of the cell with column `(int)(x / 64)` and
row `(int)(y / 64)`, truncated toward zero, when that column lies in `[0, GRID_COLS)` and that
row in `[0, GRID_ROWS)`, and into no list otherwise: for every cell `c` of the grid the
traversal of its list returns a list `l`, of length `cellCounts[c]`, and `i` is on `l` exactly
when `c` is that cell.  The truncation is `floor` for a coordinate that is not negative, and
is 0 for a coordinate strictly between -64 and 0. -/
theorem populate_inserts (reg : Registry K) (gs : GameplaySystem) (playerID : Int) (fuel : Nat)
    (i : Int) (hf : reg.entityCount < fuel) (hi : 0 ≤ i ∧ i < (reg.entityCount : Int))
    (hact : (reg.colliders i).isActive = true) (hne : i ≠ playerID) :
    (∀ c, 0 ≤ c → c < MAX_CELLS →
      ∃ l, cellList fuel (populate playerID (reg, clear gs)) c = some l ∧
        (populate playerID (reg, clear gs)).2.cellCounts c = (l.length : Int) ∧
        (i ∈ l ↔
          (0 ≤ toInt ((reg.transforms i).x / (CELL_SIZE : K)) ∧
            toInt ((reg.transforms i).x / (CELL_SIZE : K)) < GRID_COLS ∧
            0 ≤ toInt ((reg.transforms i).y / (CELL_SIZE : K)) ∧
            toInt ((reg.transforms i).y / (CELL_SIZE : K)) < GRID_ROWS ∧
            c = toInt ((reg.transforms i).y / (CELL_SIZE : K)) * GRID_COLS +
              toInt ((reg.transforms i).x / (CELL_SIZE : K))))) ∧
    (∀ q : K, 0 ≤ q → toInt (q / (CELL_SIZE : K)) = ⌊q / (CELL_SIZE : K)⌋) ∧
    (∀ q : K, -64 < q → q < 0 → toInt (q / (CELL_SIZE : K)) = 0) := by
  refine ⟨?_, ?_, ?_⟩
  · intro c h1 h2
    refine ⟨cellMembers reg playerID c reg.entityCount,
      cellList_populate reg gs playerID fuel hf c ⟨h1, h2⟩,
      (populate_populated reg gs playerID).counts c h1 h2, ?_⟩
    rw [mem_cellMembers, ← cellOf_eq_some_iff]
    unfold inCell
    constructor
    · intro h
      exact h.2.2.2.2
    · intro h
      exact ⟨hi.1, hi.2, hact, hne, h⟩
  · intro q hq
    exact toInt_of_nonneg _ (div_nonneg hq (le_of_lt cell_size_pos))
  · intro q h1 h2
    have h64 : (CELL_SIZE : K) = 64 := by
      unfold CELL_SIZE
      norm_num
    apply toInt_of_neg
    · rw [h64, lt_div_iff₀ (by norm_num)]
      linarith
    · exact div_neg_of_neg_of_pos h2 cell_size_pos

/-- Witness of C12 (amended): the enemy of `enemyRegistry`, handle 1 at (645,360), and the
cell 115 (row 5, column 10). -/
theorem populate_inserts_witness :
    (enemyRegistry.entityCount < 4 ∧ (enemyRegistry.colliders 1).isActive = true) ∧
    ∃ l, cellList 4 (populate 0 (enemyRegistry, clear freshGameplay)) 115 = some l ∧
      (populate 0 (enemyRegistry, clear freshGameplay)).2.cellCounts 115 = (l.length : Int) ∧
      ((1 : Int) ∈ l ↔
        (0 ≤ toInt ((enemyRegistry.transforms 1).x / (CELL_SIZE : ℚ)) ∧
          toInt ((enemyRegistry.transforms 1).x / (CELL_SIZE : ℚ)) < GRID_COLS ∧
          0 ≤ toInt ((enemyRegistry.transforms 1).y / (CELL_SIZE : ℚ)) ∧
          toInt ((enemyRegistry.transforms 1).y / (CELL_SIZE : ℚ)) < GRID_ROWS ∧
          115 = toInt ((enemyRegistry.transforms 1).y / (CELL_SIZE : ℚ)) * GRID_COLS +
            toInt ((enemyRegistry.transforms 1).x / (CELL_SIZE : ℚ)))) :=
  ⟨⟨by decide, by decide⟩,
   (populate_inserts enemyRegistry freshGameplay 0 4 1 (by decide) (by decide) (by decide)
    (by decide)).1 115 (by decide) (by decide)⟩

/-- Counterexample to C12 as stated: the active enemy of `leftEdgeRegistry` is at x = -10, so
`floor(x / 64) = -1` is not a column of the grid and the claim excludes it from every list;
the populate phase computes the column `(int)(-10 / 64) = 0` and links it into the list of
cell 21 (row 1, column 0), whose occupancy count becomes 1. -/
theorem populate_left_edge_inserted :
    (leftEdgeRegistry.colliders 1).isActive = true ∧ (1 : Int) ≠ 0 ∧
    ⌊(leftEdgeRegistry.transforms 1).x / (CELL_SIZE : ℚ)⌋ = -1 ∧
    cellList 3 (populate 0 (leftEdgeRegistry, clear freshGameplay)) 21 = some [1] ∧
    (populate 0 (leftEdgeRegistry, clear freshGameplay)).2.cellCounts 21 = 1 ∧
    getCountInCell (populate 0 (leftEdgeRegistry, clear freshGameplay)).2 0 1 = 1 := by
  decide!

/-- C13: after the clear and populate phases, the traversal of the list of every cell of the
grid returns a list without repetition, no handle is on the lists of two cells, and a handle
whose collider is inactive, whose computed cell is outside the grid bounds, or which is the
player is on no list. -/
theorem populate_lists_disjoint (reg : Registry K) (gs : GameplaySystem) (playerID : Int)
    (fuel : Nat) (hf : reg.entityCount < fuel) :
    (∀ c, 0 ≤ c → c < MAX_CELLS →
      ∃ l, cellList fuel (populate playerID (reg, clear gs)) c = some l ∧ l.Nodup) ∧
    (∀ c c' l l' k, 0 ≤ c → c < MAX_CELLS → 0 ≤ c' → c' < MAX_CELLS →
      cellList fuel (populate playerID (reg, clear gs)) c = some l →
      cellList fuel (populate playerID (reg, clear gs)) c' = some l' →
      k ∈ l → k ∈ l' → c = c') ∧
    (∀ c l k, 0 ≤ c → c < MAX_CELLS →
      cellList fuel (populate playerID (reg, clear gs)) c = some l →
      ((reg.colliders k).isActive = false ∨ cellOf reg k = none ∨ k = playerID) → k ∉ l) := by
  refine ⟨?_, ?_, ?_⟩
  · intro c h1 h2
    exact ⟨_, cellList_populate reg gs playerID fuel hf c ⟨h1, h2⟩,
      cellMembers_nodup reg playerID c reg.entityCount⟩
  · intro c c' l l' k h1 h2 h3 h4 hl hl' hk hk'
    rw [cellList_populate reg gs playerID fuel hf c ⟨h1, h2⟩] at hl
    rw [cellList_populate reg gs playerID fuel hf c' ⟨h3, h4⟩] at hl'
    rw [← Option.some.inj hl] at hk
    rw [← Option.some.inj hl'] at hk'
    exact cellMembers_disjoint reg playerID reg.entityCount c' c k hk' hk
  · intro c l k h1 h2 hl hbad hk
    rw [cellList_populate reg gs playerID fuel hf c ⟨h1, h2⟩] at hl
    rw [← Option.some.inj hl, mem_cellMembers] at hk
    obtain ⟨-, -, ha, hp, hcell⟩ := hk
    rcases hbad with h | h | h
    · rw [ha] at h
      exact Bool.noConfusion h
    · rw [hcell] at h
      exact Option.noConfusion h
    · exact hp h

/-- Witness of C13: the scenario `coinsRegistry`, whose two coins share the cell 22. -/
theorem populate_lists_disjoint_witness :
    coinsRegistry.entityCount < 4 ∧
    (∃ l, cellList 4 (populate 0 (coinsRegistry, clear freshGameplay)) 22 = some l ∧ l.Nodup) ∧
    cellList 4 (populate 0 (coinsRegistry, clear freshGameplay)) 22 = some [2, 1] :=
  ⟨by decide,
   (populate_lists_disjoint coinsRegistry freshGameplay 0 4 (by decide)).1 22 (by decide)
     (by decide),
   by decide!⟩

theorem isChain_iterate (nx : Int → Int) (l : List Int) (head : Int) (h : IsChain nx head l) :
    nx^[l.length] head = -1 ∧ ∀ j, j < l.length → nx^[j] head ≠ -1 := by
  induction l generalizing head with
  | nil => exact ⟨h, fun j hj => absurd hj (Nat.not_lt_zero j)⟩
  | cons a l ih =>
    obtain ⟨h1, h2, h3⟩ := h
    subst h1
    obtain ⟨e1, e2⟩ := ih _ h3
    refine ⟨?_, ?_⟩
    · rw [List.length_cons, Function.iterate_succ_apply]
      exact e1
    · intro j hj
      cases j with
      | zero => exact h2
      | succ j =>
        rw [Function.iterate_succ_apply]
        exact e2 j (by simpa using hj)

theorem destroyEntity_nextEntity (reg : Registry K) (id : Int) :
    (reg.destroyEntity id).nextEntity = reg.nextEntity := rfl

theorem foldl_destroyEntity_nextEntity (ids : List Int) (reg : Registry K) :
    (ids.foldl Registry.destroyEntity reg).nextEntity = reg.nextEntity :=
  foldl_preserves Registry.nextEntity _ (fun r id => destroyEntity_nextEntity r id) ids reg

/-- C14: after the clear and populate phases, for every cell of the grid the chain
`gridHead[c]`, `nextEntity[...]`, ... reaches the terminator `-1` after exactly `cellCounts[c]`
handles and not before; the handles on it are pairwise distinct and below `entityCount`; the
chain is the same after `destroyEntity` has been applied to any handles, as `destroyEntity`
does not write `nextEntity`; and with a loop bound above `entityCount` the traversals of the
separation pass and of the player scan terminate. -/
theorem populate_lists_terminate (rnd sqrt : K → K) (reg : Registry K) (gs : GameplaySystem)
    (playerID : Int) (fuel : Nat) (hf : reg.entityCount < fuel) :
    (∀ c, 0 ≤ c → c < MAX_CELLS →
      ∃ l, cellList fuel (populate playerID (reg, clear gs)) c = some l ∧
        (l.length : Int) = (populate playerID (reg, clear gs)).2.cellCounts c ∧
        l.Nodup ∧ (∀ k ∈ l, 0 ≤ k ∧ k < (reg.entityCount : Int)) ∧
        (populate playerID (reg, clear gs)).1.nextEntity^[l.length]
          ((populate playerID (reg, clear gs)).2.gridHead c) = -1 ∧
        (∀ j, j < l.length →
          (populate playerID (reg, clear gs)).1.nextEntity^[j]
            ((populate playerID (reg, clear gs)).2.gridHead c) ≠ -1) ∧
        (∀ ids : List Int,
          cellList fuel (ids.foldl Registry.destroyEntity (populate playerID (reg, clear gs)).1,
            (populate playerID (reg, clear gs)).2) c = some l)) ∧
    (∀ r id, (Registry.destroyEntity r id).nextEntity = (r : Registry K).nextEntity) ∧
    (∃ r3, coinSeparation rnd sqrt fuel (populate playerID (reg, clear gs)).2.gridHead
        (populate playerID (reg, clear gs)).1 = some r3 ∧
      ∃ s4, playerCollision rnd fuel playerID (r3, (populate playerID (reg, clear gs)).2) =
        some s4) := by
  have hpop := populate_populated reg gs playerID
  have hlen : ∀ c, (cellMembers reg playerID c reg.entityCount).length < fuel := fun c =>
    lt_of_le_of_lt (cellMembers_length_le reg playerID c reg.entityCount) hf
  refine ⟨?_, fun r id => destroyEntity_nextEntity r id, ?_⟩
  · intro c h1 h2
    obtain ⟨e1, e2⟩ := isChain_iterate _ _ _ (hpop.chain c h1 h2)
    refine ⟨_, cellList_populate reg gs playerID fuel hf c ⟨h1, h2⟩, (hpop.counts c h1 h2).symm,
      cellMembers_nodup reg playerID c reg.entityCount, ?_, e1, e2, ?_⟩
    · intro k hk
      rw [mem_cellMembers] at hk
      exact ⟨hk.1, hk.2.1⟩
    · intro ids
      apply cellList_of_chain
      · dsimp only
        rw [foldl_destroyEntity_nextEntity]
        exact hpop.chain c h1 h2
      · exact hlen c
  · refine ⟨separated rnd sqrt playerID (reg, gs), afterSeparation_eq sqrt fuel playerID (reg, gs) hf,
      _, playerCollision_eq fuel playerID
        (fun c => cellMembers reg playerID c reg.entityCount) _ ?_ (fun c _ _ => hlen c)⟩
    intro c h1 h2
    dsimp only
    unfold separated
    rw [sepCells_nextEntity]
    exact hpop.chain c h1 h2

/-- Witness of C14: the scenario `coinsRegistry`; the list of cell 22 is `[2, 1]` and its
occupancy count is 2. -/
theorem populate_lists_terminate_witness :
    coinsRegistry.entityCount < 4 ∧
    (∃ l, cellList 4 (populate 0 (coinsRegistry, clear freshGameplay)) 22 = some l ∧
        (l.length : Int) = (populate 0 (coinsRegistry, clear freshGameplay)).2.cellCounts 22 ∧
        l.Nodup ∧ (∀ k ∈ l, 0 ≤ k ∧ k < (coinsRegistry.entityCount : Int)) ∧
        (populate 0 (coinsRegistry, clear freshGameplay)).1.nextEntity^[l.length]
          ((populate 0 (coinsRegistry, clear freshGameplay)).2.gridHead 22) = -1 ∧
        (∀ j, j < l.length →
          (populate 0 (coinsRegistry, clear freshGameplay)).1.nextEntity^[j]
            ((populate 0 (coinsRegistry, clear freshGameplay)).2.gridHead 22) ≠ -1) ∧
        (∀ ids : List Int,
          cellList 4 (ids.foldl Registry.destroyEntity
            (populate 0 (coinsRegistry, clear freshGameplay)).1,
            (populate 0 (coinsRegistry, clear freshGameplay)).2) 22 = some l)) ∧
    (populate 0 (coinsRegistry, clear freshGameplay)).2.cellCounts 22 = 2 :=
  ⟨by decide,
   (populate_lists_terminate round32 (fun _ => (5 : ℚ)) coinsRegistry freshGameplay 0 4
     (by decide)).1 22 (by decide) (by decide),
   by decide!⟩

end GameplaySystem

end DOD
